import Mathlib

/-!
# soulprint-service: a shallow embedding of the reflection pipeline

The Go sources embedded here are `services/ai_service.go`,
`services/journal_service.go`, `utils/openai.go`, `models/journal.go`,
`controllers/journal.go` and `controllers/reflection.go`.

Conventions of the embedding.

* A Go `string` is an immutable sequence of bytes: `GoString := List UInt8`.
  `len`, slicing and `==` act on bytes, exactly as in Go.  String literals of
  the source are written `go "..."` (their UTF-8 encoding).
* Go `int` values are modelled by `Int`.  Every counter of the embedded code is
  bounded by the length of a slice, which itself is an `int`, so no counter can
  overflow.
* A run-time panic (slice bounds out of range) is the value `none`.
* The order in which `range` visits the keys of a Go map is not specified by
  the language; it is an explicit argument of the function that ranges.
* The document store is the pair of collections of `World`; what the driver may
  add to it (a failure of an operation) is given by `Env.dbError`.
-/

set_option autoImplicit false
set_option maxRecDepth 8000

namespace Soulprint

/-! ## Strings -/

/-- A Go string: a sequence of bytes. -/
abbrev GoString := List UInt8

/-- The Go string denoted by a source literal (UTF-8 encoding of the text). -/
def go (s : String) : GoString := s.toList.flatMap String.utf8EncodeChar

/-- Go `len(s)` as an `int`. -/
def len (s : GoString) : Int := (s.length : Int)

/-- Go slice expression `s[lo:hi]`; `none` is the bounds panic. -/
def slice (s : GoString) (lo hi : Int) : Option GoString :=
  if 0 ≤ lo ∧ lo ≤ hi ∧ hi ≤ len s then
    some ((s.take hi.toNat).drop lo.toNat)
  else none

/-- Go `a && b`: `b` is evaluated (and may panic) only when `a` is true. -/
def goAnd (a b : Option Bool) : Option Bool :=
  match a with
  | some true => b
  | other => other

/-- Go `a || b`: `b` is evaluated (and may panic) only when `a` is false. -/
def goOr (a b : Option Bool) : Option Bool :=
  match a with
  | some false => b
  | other => other

/-- The comparison `s[lo:hi] == t`. -/
def sliceEq (s : GoString) (lo hi : Int) (t : GoString) : Option Bool :=
  (slice s lo hi).map (fun u => decide (u = t))

/-! ## `services/ai_service.go`: the substring helper -/

/-- The loop of `containsMiddle` from index `i` on:
`for ; i <= len(s)-len(substr); i++ { if s[i:i+len(substr)] == substr { return true } }; return false`.
The first argument bounds the number of iterations; `none` is a panic or an
exhausted bound. -/
def containsMiddleLoop (s substr : GoString) : Nat → Int → Option Bool
  | 0, _ => none
  | fuel + 1, i =>
    if i ≤ len s - len substr then
      match sliceEq s i (i + len substr) substr with
      | some true => some true
      | some false => containsMiddleLoop s substr fuel (i + 1)
      | none => none
    else some false

/-- Go `containsMiddle(s, substr)`: the loop started at `i := 1`. -/
def containsMiddle (s substr : GoString) : Option Bool :=
  containsMiddleLoop s substr (s.length + 1) 1

/-- Go `contains(s, substr)`:
`len(s) >= len(substr) && (s == substr || len(s) > len(substr) &&
 (s[:len(substr)] == substr || s[len(s)-len(substr):] == substr || containsMiddle(s, substr)))`. -/
def contains (s substr : GoString) : Option Bool :=
  goAnd (some (decide (len s ≥ len substr)))
    (goOr (some (decide (s = substr)))
      (goAnd (some (decide (len s > len substr)))
        (goOr
          (goOr (sliceEq s 0 (len substr) substr)
                (sliceEq s (len s - len substr) (len s) substr))
          (containsMiddle s substr))))

/-! ## `services/ai_service.go`: `extractSentiment` -/

/-- The local `positive` of `extractSentiment`. -/
def positive : List GoString :=
  [go "happy", go "joy", go "grateful", go "excited", go "love", go "wonderful",
   go "amazing", go "great"]

/-- The local `negative` of `extractSentiment`. -/
def negative : List GoString :=
  [go "sad", go "angry", go "frustrated", go "worried", go "anxious", go "terrible",
   go "awful", go "horrible"]

/-- The loop `for _, word := range words { if contains(content, word) { count++ } }`,
started with the counter at `count`. -/
def countWords (content : GoString) : List GoString → Int → Option Int
  | [], count => some count
  | word :: rest, count =>
    match contains content word with
    | some true => countWords content rest (count + 1)
    | some false => countWords content rest count
    | none => none

/-- Go `extractSentiment(content)`. -/
def extractSentiment (content : GoString) : Option GoString :=
  let contentLower := content
  match countWords contentLower positive 0 with
  | none => none
  | some positiveCount =>
    match countWords contentLower negative 0 with
    | none => none
    | some negativeCount =>
      if positiveCount > negativeCount then some (go "positive")
      else if negativeCount > positiveCount then some (go "negative")
      else some (go "neutral")

/-! ## `models/journal.go` -/

/-- A `primitive.ObjectID`: twelve bytes. -/
structure ObjectID where
  bytes : List UInt8
  deriving DecidableEq

/-- The zero `ObjectID` (the value of an unset identifier field). -/
def NilObjectID : ObjectID := ⟨List.replicate 12 0⟩

/-- An instant, as read from the clock (`time.Time`). -/
abbrev Time := Int

/-- Go `models.JournalEntry`. -/
structure JournalEntry where
  ID : ObjectID
  UserID : GoString
  Title : GoString
  Content : GoString
  Tags : List GoString
  Mood : GoString
  CreatedAt : Time
  UpdatedAt : Time
  deriving DecidableEq

/-- Go `models.Reflection`; the field `Type` of the source is `Type_` here. -/
structure Reflection where
  ID : ObjectID
  EntryID : ObjectID
  UserID : GoString
  Content : GoString
  Type_ : GoString
  Keywords : List GoString
  Sentiment : GoString
  CreatedAt : Time
  deriving DecidableEq

/-- Go `models.CreateJournalRequest`. -/
structure CreateJournalRequest where
  Title : GoString
  Content : GoString
  Tags : List GoString
  Mood : GoString
  deriving DecidableEq

/-- Go `models.ReflectionRequest`; the field `Type` of the source is `Type_` here. -/
structure ReflectionRequest where
  EntryID : GoString
  Type_ : GoString
  deriving DecidableEq

/-! ## Go maps `map[string]int` -/

/-- A `map[string]int`: its key/value pairs, every key at most once. -/
abbrev GoMap := List (GoString × Int)

/-- The comma-ok lookup `v, ok := m[k]`. -/
def mapLookup : GoMap → GoString → Option Int
  | [], _ => none
  | (k', v) :: rest, k => if k' = k then some v else mapLookup rest k

/-- The expression `m[k]`: the zero value when the key is absent. -/
def mapGet (m : GoMap) (k : GoString) : Int := (mapLookup m k).getD 0

/-- The assignment `m[k] = v`. -/
def mapSet : GoMap → GoString → Int → GoMap
  | [], k, v => [(k, v)]
  | (k', v') :: rest, k, v =>
    if k' = k then (k', v) :: rest else (k', v') :: mapSet rest k v

/-- The statement `m[k]++`. -/
def mapIncr (m : GoMap) (k : GoString) : GoMap := mapSet m k (mapGet m k + 1)

/-- The keys of a map. -/
def mapKeys (m : GoMap) : List GoString := m.map Prod.fst

/-- The values of a map. -/
def mapValues (m : GoMap) : List Int := m.map Prod.snd

/-- What the language promises of `for k := range m`: every key of the map is
visited exactly once, in an order that is not specified.  `range m` is the
order of one run. -/
def RangeOrder (range : GoMap → List GoString) : Prop :=
  ∀ m : GoMap, (range m).Perm (mapKeys m)

/-! ## `services/ai_service.go`: aggregation helpers -/

/-- The index expression `reflections[i]`; `none` is the bounds panic. -/
def index (reflections : List Reflection) (i : Int) : Option Reflection :=
  if 0 ≤ i ∧ i < (reflections.length : Int) then reflections.get? i.toNat else none

/-- The inner loop of `extractRecentThemes`:
`for _, keyword := range reflections[i].Keywords { themeMap[keyword]++ }`. -/
def countKeywords (themeMap : GoMap) : List GoString → GoMap
  | [] => themeMap
  | keyword :: rest => countKeywords (mapIncr themeMap keyword) rest

/-- The outer loop of `extractRecentThemes` from index `i` on:
`for ; i < limit; i++ { ... reflections[i].Keywords ... }`.
The first argument bounds the number of iterations. -/
def themeMapLoop (reflections : List Reflection) (limit : Int) :
    Nat → Int → GoMap → Option GoMap
  | 0, _, _ => none
  | fuel + 1, i, themeMap =>
    if i < limit then
      match index reflections i with
      | some reflection =>
        themeMapLoop reflections limit fuel (i + 1) (countKeywords themeMap reflection.Keywords)
      | none => none
    else some themeMap

/-- The second loop of `extractRecentThemes`, over the keys in the order the
run visits them:
`for theme := range themeMap { themes = append(themes, theme); if len(themes) >= 5 { break } }`. -/
def collectThemes : List GoString → List GoString → List GoString
  | [], themes => themes
  | theme :: rest, themes =>
    let themes := themes ++ [theme]
    if (themes.length : Int) ≥ 5 then themes else collectThemes rest themes

/-- The limit computed by `extractRecentThemes`:
`limit := 10; if len(reflections) < limit { limit = len(reflections) }`. -/
def themeLimit (reflections : List Reflection) : Int :=
  let limit := 10
  if (reflections.length : Int) < limit then (reflections.length : Int) else limit

/-- Go `extractRecentThemes(reflections)`, in a run whose map iteration is `range`. -/
def extractRecentThemes (range : GoMap → List GoString) (reflections : List Reflection) :
    Option (List GoString) :=
  let themeMap : GoMap := []
  let limit := themeLimit reflections
  match themeMapLoop reflections limit 11 0 themeMap with
  | none => none
  | some themeMap => some (collectThemes (range themeMap) [])

/-- Go `analyzeSentimentTrends(reflections)`. -/
def analyzeSentimentTrends (reflections : List Reflection) : GoMap :=
  let sentiments : GoMap := [(go "positive", 0), (go "negative", 0), (go "neutral", 0)]
  reflections.foldl
    (fun sentiments reflection =>
      let sentiment := reflection.Sentiment
      if sentiment ≠ go "" then mapIncr sentiments sentiment else sentiments)
    sentiments

/-- Go `countReflectionTypes(reflections)`. -/
def countReflectionTypes (reflections : List Reflection) : GoMap :=
  let types : GoMap := []
  reflections.foldl (fun types reflection => mapIncr types reflection.Type_) types

/-- The value assembled by `GetInsights`. -/
structure Insights where
  total_reflections : Int
  recent_themes : Option (List GoString)
  sentiment_trends : GoMap
  reflection_types : GoMap

/-- The aggregation step of `GetInsights`, applied to the reflections it has fetched
(`recent_themes` is `none` if `extractRecentThemes` panics). -/
def aggregateInsights (range : GoMap → List GoString) (reflections : List Reflection) :
    Insights :=
  { total_reflections := (reflections.length : Int)
    recent_themes := extractRecentThemes range reflections
    sentiment_trends := analyzeSentimentTrends reflections
    reflection_types := countReflectionTypes reflections }

/-! ## Library functions: `strings`, `primitive`, errors -/

/-- The code points for which `unicode.IsSpace` holds. -/
def spaceRunes : List Nat :=
  [0x09, 0x0A, 0x0B, 0x0C, 0x0D, 0x20, 0x85, 0xA0, 0x1680,
   0x2000, 0x2001, 0x2002, 0x2003, 0x2004, 0x2005, 0x2006, 0x2007, 0x2008, 0x2009, 0x200A,
   0x2028, 0x2029, 0x202F, 0x205F, 0x3000]

/-- The UTF-8 encodings of the white-space code points.  A string begins (ends) with a
white-space rune, as decoded by `utf8.DecodeRuneInString` (`DecodeLastRuneInString`),
exactly when it begins (ends) with one of these byte sequences. -/
def spaceEncodings : List GoString :=
  spaceRunes.map (fun r => String.utf8EncodeChar (Char.ofNat r))

/-- Removal of leading white space, one rune per step. -/
def trimLeftSpace : Nat → GoString → GoString
  | 0, s => s
  | fuel + 1, s =>
    match spaceEncodings.find? (fun e => e.isPrefixOf s) with
    | some e => trimLeftSpace fuel (s.drop e.length)
    | none => s

/-- Removal of trailing white space, one rune per step. -/
def trimRightSpace : Nat → GoString → GoString
  | 0, s => s
  | fuel + 1, s =>
    match spaceEncodings.find? (fun e => e.isSuffixOf s) with
    | some e => trimRightSpace fuel (s.take (s.length - e.length))
    | none => s

/-- Go `strings.TrimSpace(s)`: `s` without its leading and trailing white space.  Every step
removes at least one byte, so `len(s)` steps are enough on each side. -/
def TrimSpace (s : GoString) : GoString :=
  let t := trimLeftSpace s.length s
  trimRightSpace t.length t

/-- Go `strings.Split(s, sep)` for a separator of one byte. -/
def Split (sep : UInt8) : GoString → List GoString
  | [] => [[]]
  | b :: rest =>
    if b = sep then [] :: Split sep rest
    else
      match Split sep rest with
      | piece :: pieces => (b :: piece) :: pieces
      | [] => [[b]]

/-- A Go `error` value. -/
inductive GoError where
  /-- The sentinel `mongo.ErrNoDocuments`. -/
  | ErrNoDocuments
  /-- Any other error returned by a library, with its text. -/
  | library (msg : GoString)
  /-- The value of `fmt.Errorf(msg)`. -/
  | errorf (msg : GoString)
  /-- The value of `fmt.Errorf(msg + "%w", err)`. -/
  | wrap (msg : GoString) (err : GoError)
  deriving DecidableEq

/-- The method `err.Error()`. -/
def GoError.Error : GoError → GoString
  | .ErrNoDocuments => go "mongo: no documents in result"
  | .library msg => msg
  | .errorf msg => msg
  | .wrap msg err => msg ++ err.Error

/-- The value of one hexadecimal digit (`encoding/hex`). -/
def fromHexChar (c : UInt8) : Option Nat :=
  if 48 ≤ c.toNat ∧ c.toNat ≤ 57 then some (c.toNat - 48)
  else if 97 ≤ c.toNat ∧ c.toNat ≤ 102 then some (c.toNat - 97 + 10)
  else if 65 ≤ c.toNat ∧ c.toNat ≤ 70 then some (c.toNat - 65 + 10)
  else none

/-- The bytes denoted by a string of hexadecimal digits (`hex.Decode`). -/
def hexDecode : GoString → Option (List UInt8)
  | [] => some []
  | [_] => none
  | a :: b :: rest =>
    match fromHexChar a, fromHexChar b, hexDecode rest with
    | some x, some y, some bytes => some (UInt8.ofNat (16 * x + y) :: bytes)
    | _, _, _ => none

/-- Go `primitive.ObjectIDFromHex(s)`: twenty-four hexadecimal digits. -/
def ObjectIDFromHex (s : GoString) : Except GoError ObjectID :=
  if s.length ≠ 24 then
    .error (.library (go "the provided hex string is not a valid ObjectID"))
  else
    match hexDecode s with
    | some bytes => .ok ⟨bytes⟩
    | none => .error (.library (go "encoding/hex: invalid byte"))

/-! ## The outside world -/

/-- Go `config.Config`, the fields read by the embedded code. -/
structure Config where
  OpenAIAPIKey : GoString
  OpenAIModel : GoString
  LocalModelURL : GoString
  LocalModelName : GoString
  UseLocalModel : Bool

/-- Go `openai.ChatCompletionMessage`. -/
structure ChatCompletionMessage where
  Role : GoString
  Content : GoString
  deriving DecidableEq

/-- Go `openai.ChatCompletionRequest`; `Temperature` is kept as its source literal. -/
structure ChatCompletionRequest where
  Model : GoString
  Messages : List ChatCompletionMessage
  MaxTokens : Int
  Temperature : GoString
  deriving DecidableEq

/-- Go `utils.LocalModelRequest`. -/
structure LocalModelRequest where
  Model : GoString
  Prompt : GoString
  Stream : Bool
  deriving DecidableEq

/-- Go `utils.LocalModelResponse`. -/
structure LocalModelResponse where
  Response : GoString
  Done : Bool
  deriving DecidableEq

/-- An `http.Response`: its status and the outcome of `io.ReadAll(resp.Body)`. -/
structure HTTPResponse where
  StatusCode : Int
  Body : Except GoError GoString

/-- The operations of a collection of the document store. -/
inductive DbOp where
  | InsertOne
  | Find
  | FindOne
  | FindOneAndUpdate
  | DeleteOne
  /-- The call `cursor.All(ctx, &results)` that decodes the documents found. -/
  | CursorAll
  deriving DecidableEq

/-- The collections of the store. -/
inductive Collection where
  | journal_entries
  | reflections
  deriving DecidableEq

/-- What the program does not decide: configuration, the answers of the two model
services, the clock, the identifiers the driver generates, and the failures of the driver. -/
structure Env where
  config : Config
  /-- Go `client.CreateChatCompletion`: an error, or the contents of the returned choices. -/
  CreateChatCompletion : ChatCompletionRequest → Except GoError (List GoString)
  /-- Go `httpClient.Post(url, "application/json", body)`, the body being the JSON of the request. -/
  Post : GoString → LocalModelRequest → Except GoError HTTPResponse
  /-- Go `json.Unmarshal(body, &localResp)`. -/
  Unmarshal : GoString → Except GoError LocalModelResponse
  /-- The successive readings of the clock. -/
  clock : Nat → Time
  /-- The successive identifiers generated for inserted documents. -/
  newObjectID : Nat → ObjectID
  /-- A failure of the driver (connection, decoding) in an operation, if any. -/
  dbError : Collection → DbOp → Option GoError

/-- The state that the program reads and changes. -/
structure World where
  journal_entries : List JournalEntry
  reflections : List Reflection
  /-- The number of clock readings taken so far. -/
  readings : Nat
  /-- The number of identifiers generated so far. -/
  generated : Nat
  /-- The calls `GenerateReflection(content, kind)` received by the model client so far. -/
  backendCalls : List (GoString × GoString)
  deriving DecidableEq

/-- Go `time.Now()`: the next reading of the clock. -/
def timeNow (env : Env) (w : World) : Time × World :=
  (env.clock w.readings, { w with readings := w.readings + 1 })

/-- Go `collection.FindOne(ctx, {"_id": objectID, "user_id": userID}).Decode(&entry)` on
`journal_entries`. -/
def findOneEntry (env : Env) (w : World) (objectID : ObjectID) (userID : GoString) :
    Except GoError JournalEntry :=
  match env.dbError .journal_entries .FindOne with
  | some err => .error err
  | none =>
    match w.journal_entries.find? (fun e => decide (e.ID = objectID ∧ e.UserID = userID)) with
    | some entry => .ok entry
    | none => .error .ErrNoDocuments

/-- Go `collection.InsertOne(ctx, entry)` on `journal_entries`: the document has no
identifier yet and is stored under a generated one, which is returned. -/
def insertOneEntry (env : Env) (w : World) (entry : JournalEntry) :
    Except GoError ObjectID × World :=
  match env.dbError .journal_entries .InsertOne with
  | some err => (.error err, w)
  | none =>
    let id := env.newObjectID w.generated
    (.ok id, { w with journal_entries := w.journal_entries ++ [{ entry with ID := id }],
                      generated := w.generated + 1 })

/-- Go `collection.InsertOne(ctx, reflection)` on `reflections`. -/
def insertOneReflection (env : Env) (w : World) (reflection : Reflection) :
    Except GoError ObjectID × World :=
  match env.dbError .reflections .InsertOne with
  | some err => (.error err, w)
  | none =>
    let id := env.newObjectID w.generated
    (.ok id, { w with reflections := w.reflections ++ [{ reflection with ID := id }],
                      generated := w.generated + 1 })

/-! ## `utils/openai.go` -/

/-- Go `utils.OpenAIClient`, the fields read by the embedded code. -/
structure OpenAIClient where
  useLocal : Bool
  localURL : GoString
  localModel : GoString

/-- Go `NewOpenAIClient()`. -/
def NewOpenAIClient (config : Config) : OpenAIClient :=
  { useLocal := config.UseLocalModel
    localURL := config.LocalModelURL
    localModel := config.LocalModelName }

/-- Go `buildPrompt(content, reflectionType)`. -/
def OpenAIClient.buildPrompt (content reflectionType : GoString) : GoString :=
  if reflectionType = go "summary" then
    go "Please provide a concise summary of this journal entry, highlighting the main themes and emotions:\n\n"
      ++ content
  else if reflectionType = go "analysis" then
    go "Please provide a thoughtful analysis of this journal entry, identifying patterns, emotions, and potential insights for personal growth:\n\n"
      ++ content
  else
    go "Please provide a thoughtful reflection on this journal entry, offering gentle insights and perspectives that might help with self-understanding and growth:\n\n"
      ++ content

/-- Go `callLocalModel(prompt)`. -/
def OpenAIClient.callLocalModel (oai : OpenAIClient) (env : Env) (prompt : GoString) :
    Except GoError GoString :=
  let reqBody : LocalModelRequest := { Model := oai.localModel, Prompt := prompt, Stream := false }
  let url := oai.localURL ++ go "/api/generate"
  match env.Post url reqBody with
  | .error err => .error (.wrap (go "failed to call local model: ") err)
  | .ok resp =>
    if resp.StatusCode ≠ 200 then
      .error (.errorf (go "local model API returned status: " ++ go (toString resp.StatusCode)))
    else
      match resp.Body with
      | .error err => .error (.wrap (go "failed to read response: ") err)
      | .ok body =>
        match env.Unmarshal body with
        | .error err => .error (.wrap (go "failed to unmarshal response: ") err)
        | .ok localResp => .ok localResp.Response

/-- Go `generateLocalReflection(journalContent, reflectionType)`. -/
def OpenAIClient.generateLocalReflection (oai : OpenAIClient) (env : Env)
    (journalContent reflectionType : GoString) : Except GoError GoString :=
  let systemPrompt := go "You are a thoughtful journal reflection assistant. Provide insightful, empathetic, and constructive reflections on journal entries."
  let userPrompt := OpenAIClient.buildPrompt journalContent reflectionType
  let fullPrompt := systemPrompt ++ go "\n\nUser: " ++ userPrompt ++ go "\n\nAssistant:"
  oai.callLocalModel env fullPrompt

/-- Go `OpenAIClient.GenerateReflection(journalContent, reflectionType)`. -/
def OpenAIClient.GenerateReflection (oai : OpenAIClient) (env : Env)
    (journalContent reflectionType : GoString) : Except GoError GoString :=
  if oai.useLocal then
    oai.generateLocalReflection env journalContent reflectionType
  else if env.config.OpenAIAPIKey = go "" then
    .ok (go "AI reflection unavailable - API key not configured")
  else
    let prompt := OpenAIClient.buildPrompt journalContent reflectionType
    match env.CreateChatCompletion
      { Model := env.config.OpenAIModel
        Messages :=
          [{ Role := go "system"
             Content := go "You are a thoughtful journal reflection assistant. Provide insightful, empathetic, and constructive reflections on journal entries." },
           { Role := go "user", Content := prompt }]
        MaxTokens := 500
        Temperature := go "0.7" } with
    | .error err => .error (.wrap (go "failed to generate reflection: ") err)
    | .ok choices =>
      match choices with
      | [] => .error (.errorf (go "no reflection generated"))
      | choice :: _ => .ok choice

/-- The parsing shared by both keyword paths (44 is the byte of the separator ","):
`keywords := strings.Split(strings.TrimSpace(r), ","); for i, keyword := range keywords { keywords[i] = strings.TrimSpace(keyword) }`. -/
def parseKeywords (r : GoString) : List GoString :=
  (Split 44 (TrimSpace r)).map TrimSpace

/-- Go `extractLocalKeywords(content)`: the pair of returned values. -/
def OpenAIClient.extractLocalKeywords (oai : OpenAIClient) (env : Env) (content : GoString) :
    List GoString × Option GoError :=
  let prompt := go "Extract 3-5 key themes or keywords from this journal entry. Return only the keywords separated by commas:\n\n"
    ++ content ++ go "\n\nKeywords:"
  match oai.callLocalModel env prompt with
  | .error err => ([], some err)
  | .ok response => (parseKeywords response, none)

/-- Go `OpenAIClient.ExtractKeywords(content)`: the pair of returned values. -/
def OpenAIClient.ExtractKeywords (oai : OpenAIClient) (env : Env) (content : GoString) :
    List GoString × Option GoError :=
  if oai.useLocal then
    oai.extractLocalKeywords env content
  else if env.config.OpenAIAPIKey = go "" then
    ([], none)
  else
    let prompt := go "Extract 3-5 key themes or keywords from this journal entry. Return only the keywords separated by commas:\n\n"
      ++ content
    match env.CreateChatCompletion
      { Model := env.config.OpenAIModel
        Messages := [{ Role := go "user", Content := prompt }]
        MaxTokens := 50
        Temperature := go "0.3" } with
    | .error err => ([], some err)
    | .ok choices =>
      match choices with
      | [] => ([], none)
      | choice :: _ => (parseKeywords choice, none)

/-! ## `services/journal_service.go` -/

/-- Go `JournalService.CreateEntry(userID, req)`: the returned pair and the world after the call. -/
def JournalService.CreateEntry (env : Env) (w : World) (userID : GoString)
    (req : CreateJournalRequest) : Except GoError JournalEntry × World :=
  let (createdAt, w) := timeNow env w
  let (updatedAt, w) := timeNow env w
  let entry : JournalEntry :=
    { ID := NilObjectID
      UserID := userID
      Title := req.Title
      Content := req.Content
      Tags := req.Tags
      Mood := req.Mood
      CreatedAt := createdAt
      UpdatedAt := updatedAt }
  match insertOneEntry env w entry with
  | (.error err, w) => (.error (.wrap (go "failed to create journal entry: ") err), w)
  | (.ok insertedID, w) => (.ok { entry with ID := insertedID }, w)

/-- Go `JournalService.GetEntryByID(userID, entryID)`. -/
def JournalService.GetEntryByID (env : Env) (w : World) (userID entryID : GoString) :
    Except GoError JournalEntry :=
  match ObjectIDFromHex entryID with
  | .error err => .error (.wrap (go "invalid entry ID: ") err)
  | .ok objectID =>
    match findOneEntry env w objectID userID with
    | .error err =>
      if err = .ErrNoDocuments then .error (.errorf (go "journal entry not found"))
      else .error (.wrap (go "failed to find journal entry: ") err)
    | .ok entry => .ok entry

/-! ## `services/ai_service.go`: `GenerateReflection` -/

/-- Go `AIService.GenerateReflection(userID, req)`: the returned pair and the world after the
call; `none` is a panic. -/
def AIService.GenerateReflection (env : Env) (w : World) (userID : GoString)
    (req : ReflectionRequest) : Option (Except GoError Reflection × World) :=
  match JournalService.GetEntryByID env w userID req.EntryID with
  | .error err => some (.error (.wrap (go "failed to get journal entry: ") err), w)
  | .ok entry =>
    let reflectionType := if req.Type_ = go "" then go "insight" else req.Type_
    let w := { w with backendCalls := w.backendCalls ++ [(entry.Content, reflectionType)] }
    match (NewOpenAIClient env.config).GenerateReflection env entry.Content reflectionType with
    | .error err => some (.error (.wrap (go "failed to generate AI reflection: ") err), w)
    | .ok reflectionContent =>
      let (keywords, _) := (NewOpenAIClient env.config).ExtractKeywords env entry.Content
      match extractSentiment reflectionContent with
      | none => none
      | some sentiment =>
        let (createdAt, w) := timeNow env w
        let reflection : Reflection :=
          { ID := NilObjectID
            EntryID := entry.ID
            UserID := userID
            Content := reflectionContent
            Type_ := reflectionType
            Keywords := keywords
            Sentiment := sentiment
            CreatedAt := createdAt }
        match insertOneReflection env w reflection with
        | (.error err, w) => some (.error (.wrap (go "failed to save reflection: ") err), w)
        | (.ok insertedID, w) => some (.ok { reflection with ID := insertedID }, w)

/-! ## The store: queries, update and delete -/

/-- The order `SetSort({"created_at": -1})`: latest first; documents with the same key are
kept in the order of the collection. -/
def sortDesc {α : Type} (key : α → Time) : List α → List α
  | [] => []
  | x :: rest =>
    let sorted := sortDesc key rest
    (sorted.filter (fun y => decide (key y > key x))) ++ x ::
      (sorted.filter (fun y => decide (¬ key y > key x)))

/-- Replacement of the first element that satisfies `p` by its image under `f`: the new
element and the new list, or `none` when no element satisfies `p`. -/
def updateFirst (p : JournalEntry → Bool) (f : JournalEntry → JournalEntry) :
    List JournalEntry → Option (JournalEntry × List JournalEntry)
  | [] => none
  | e :: rest =>
    if p e then some (f e, f e :: rest)
    else
      match updateFirst p f rest with
      | some (updated, rest') => some (updated, e :: rest')
      | none => none

/-- Go `collection.FindOneAndUpdate(ctx, {"_id": objectID, "user_id": userID}, {"$set": ...},
ReturnDocument(After)).Decode(&entry)` on `journal_entries`. -/
def findOneAndUpdateEntry (env : Env) (w : World) (objectID : ObjectID) (userID : GoString)
    (req : CreateJournalRequest) (updatedAt : Time) : Except GoError JournalEntry × World :=
  match env.dbError .journal_entries .FindOneAndUpdate with
  | some err => (.error err, w)
  | none =>
    match updateFirst (fun e => decide (e.ID = objectID ∧ e.UserID = userID))
        (fun e => { e with Title := req.Title, Content := req.Content, Tags := req.Tags,
                           Mood := req.Mood, UpdatedAt := updatedAt })
        w.journal_entries with
    | some (entry, entries) => (.ok entry, { w with journal_entries := entries })
    | none => (.error .ErrNoDocuments, w)

/-- Go `collection.DeleteOne(ctx, {"_id": objectID, "user_id": userID})` on `journal_entries`:
the returned `DeletedCount` and the world after the call. -/
def deleteOneEntry (env : Env) (w : World) (objectID : ObjectID) (userID : GoString) :
    Except GoError Int × World :=
  match env.dbError .journal_entries .DeleteOne with
  | some err => (.error err, w)
  | none =>
    match w.journal_entries.find? (fun e => decide (e.ID = objectID ∧ e.UserID = userID)) with
    | some _ =>
      (.ok 1, { w with journal_entries :=
        w.journal_entries.eraseP (fun e => decide (e.ID = objectID ∧ e.UserID = userID)) })
    | none => (.ok 0, w)

/-- A delete issued to the store: the collection and the two values of the filter. -/
structure DeleteCall where
  collection : Collection
  id : ObjectID
  user_id : GoString
  deriving DecidableEq

/-! ## `services/journal_service.go`: the other operations -/

/-- Go `JournalService.GetEntries(userID)`. -/
def JournalService.GetEntries (env : Env) (w : World) (userID : GoString) :
    Except GoError (List JournalEntry) :=
  match env.dbError .journal_entries .Find with
  | some err => .error (.wrap (go "failed to find journal entries: ") err)
  | none =>
    let cursor := sortDesc (fun e : JournalEntry => e.CreatedAt)
      (w.journal_entries.filter (fun e => decide (e.UserID = userID)))
    match env.dbError .journal_entries .CursorAll with
    | some err => .error (.wrap (go "failed to decode journal entries: ") err)
    | none => .ok cursor

/-- Go `JournalService.UpdateEntry(userID, entryID, req)`: the returned pair and the world
after the call. -/
def JournalService.UpdateEntry (env : Env) (w : World) (userID entryID : GoString)
    (req : CreateJournalRequest) : Except GoError JournalEntry × World :=
  match ObjectIDFromHex entryID with
  | .error err => (.error (.wrap (go "invalid entry ID: ") err), w)
  | .ok objectID =>
    let (updatedAt, w) := timeNow env w
    match findOneAndUpdateEntry env w objectID userID req updatedAt with
    | (.error err, w) =>
      if err = .ErrNoDocuments then (.error (.errorf (go "journal entry not found")), w)
      else (.error (.wrap (go "failed to update journal entry: ") err), w)
    | (.ok entry, w) => (.ok entry, w)

/-- Go `JournalService.DeleteEntry(userID, entryID)`: the returned error (`none` is `nil`),
the world after the call, and the deletes the call has issued to the store. -/
def JournalService.DeleteEntry (env : Env) (w : World) (userID entryID : GoString) :
    Option GoError × World × List DeleteCall :=
  match ObjectIDFromHex entryID with
  | .error err => (some (.wrap (go "invalid entry ID: ") err), w, [])
  | .ok objectID =>
    match deleteOneEntry env w objectID userID with
    | (.error err, w) =>
      (some (.wrap (go "failed to delete journal entry: ") err), w,
        [⟨.journal_entries, objectID, userID⟩])
    | (.ok deletedCount, w) =>
      if deletedCount = 0 then
        (some (.errorf (go "journal entry not found")), w,
          [⟨.journal_entries, objectID, userID⟩])
      else (none, w, [⟨.journal_entries, objectID, userID⟩])

/-! ## `services/ai_service.go`: the queries -/

/-- Go `AIService.GetReflections(userID)`. -/
def AIService.GetReflections (env : Env) (w : World) (userID : GoString) :
    Except GoError (List Reflection) :=
  match env.dbError .reflections .Find with
  | some err => .error (.wrap (go "failed to find reflections: ") err)
  | none =>
    let cursor := sortDesc (fun r : Reflection => r.CreatedAt)
      (w.reflections.filter (fun r => decide (r.UserID = userID)))
    match env.dbError .reflections .CursorAll with
    | some err => .error (.wrap (go "failed to decode reflections: ") err)
    | none => .ok cursor

/-- Go `AIService.GetReflectionsByEntry(userID, entryID)`. -/
def AIService.GetReflectionsByEntry (env : Env) (w : World) (userID entryID : GoString) :
    Except GoError (List Reflection) :=
  match ObjectIDFromHex entryID with
  | .error err => .error (.wrap (go "invalid entry ID: ") err)
  | .ok objectID =>
    match env.dbError .reflections .Find with
    | some err => .error (.wrap (go "failed to find reflections: ") err)
    | none =>
      let cursor := sortDesc (fun r : Reflection => r.CreatedAt)
        (w.reflections.filter (fun r => decide (r.EntryID = objectID ∧ r.UserID = userID)))
      match env.dbError .reflections .CursorAll with
      | some err => .error (.wrap (go "failed to decode reflections: ") err)
      | none => .ok cursor

/-! ## `controllers/journal.go` and `controllers/reflection.go` -/

/-- What a handler writes to its `http.ResponseWriter`. -/
inductive HTTPReply where
  /-- The call `http.Error(w, msg, code)`. -/
  | Error (msg : GoString) (code : Int)
  /-- The JSON `{"success": true, "data": entry}` under the status `code`. -/
  | entry (code : Int) (data : JournalEntry)
  /-- The JSON `{"success": true, "data": reflection}` under the status `code`. -/
  | reflection (code : Int) (data : Reflection)
  /-- The JSON `{"success": true, "message": msg}` under the status `code`. -/
  | message (code : Int) (msg : GoString)
  deriving DecidableEq

/-- The status of a reply. -/
def HTTPReply.StatusCode : HTTPReply → Int
  | .Error _ code => code
  | .entry code _ => code
  | .reflection code _ => code
  | .message code _ => code

/-- Go `http.StatusOK`. -/
def StatusOK : Int := 200

/-- Go `http.StatusCreated`. -/
def StatusCreated : Int := 201

/-- Go `http.StatusBadRequest`. -/
def StatusBadRequest : Int := 400

/-- Go `http.StatusNotFound`. -/
def StatusNotFound : Int := 404

/-- Go `http.StatusInternalServerError`. -/
def StatusInternalServerError : Int := 500

/-- Go `JournalController.GetEntry`, as a function of the path variable `id`. -/
def JournalController.GetEntry (env : Env) (w : World) (entryID : GoString) : HTTPReply :=
  if entryID = go "" then .Error (go "Entry ID is required") StatusBadRequest
  else
    let userID := go "user123"
    match JournalService.GetEntryByID env w userID entryID with
    | .error err =>
      if err.Error = go "journal entry not found" then .Error err.Error StatusNotFound
      else .Error err.Error StatusInternalServerError
    | .ok entry => .entry StatusOK entry

/-- Go `JournalController.UpdateEntry`, as a function of the path variable `id` and of the
decoded body (`none` when the body does not decode). -/
def JournalController.UpdateEntry (env : Env) (w : World) (entryID : GoString)
    (body : Option CreateJournalRequest) : HTTPReply × World :=
  if entryID = go "" then (.Error (go "Entry ID is required") StatusBadRequest, w)
  else
    match body with
    | none => (.Error (go "Invalid request body") StatusBadRequest, w)
    | some req =>
      if req.Title = go "" ∨ req.Content = go "" then
        (.Error (go "Title and content are required") StatusBadRequest, w)
      else
        let userID := go "user123"
        match JournalService.UpdateEntry env w userID entryID req with
        | (.error err, w) =>
          if err.Error = go "journal entry not found" then
            (.Error err.Error StatusNotFound, w)
          else (.Error err.Error StatusInternalServerError, w)
        | (.ok entry, w) => (.entry StatusOK entry, w)

/-- Go `JournalController.DeleteEntry`, as a function of the path variable `id`. -/
def JournalController.DeleteEntry (env : Env) (w : World) (entryID : GoString) :
    HTTPReply × World :=
  if entryID = go "" then (.Error (go "Entry ID is required") StatusBadRequest, w)
  else
    let userID := go "user123"
    match JournalService.DeleteEntry env w userID entryID with
    | (some err, w, _) =>
      if err.Error = go "journal entry not found" then (.Error err.Error StatusNotFound, w)
      else (.Error err.Error StatusInternalServerError, w)
    | (none, w, _) => (.message StatusOK (go "Entry deleted successfully"), w)

/-- Go `ReflectionController.GenerateReflection`, as a function of the decoded body (`none`
when the body does not decode); the result `none` is a panic. -/
def ReflectionController.GenerateReflection (env : Env) (w : World)
    (body : Option ReflectionRequest) : Option (HTTPReply × World) :=
  match body with
  | none => some (.Error (go "Invalid request body") StatusBadRequest, w)
  | some req =>
    if req.EntryID = go "" then some (.Error (go "Entry ID is required") StatusBadRequest, w)
    else
      let userID := go "user123"
      match AIService.GenerateReflection env w userID req with
      | none => none
      | some (.error err, w) => some (.Error err.Error StatusInternalServerError, w)
      | some (.ok reflection, w) => some (.reflection StatusCreated reflection, w)

/-! ## Notions used to state the properties -/

/-- The number of words of `lexicon` that occur in `text` as a contiguous
block of bytes; a word is counted once. -/
def occurring (lexicon : List String) (text : GoString) : Nat :=
  lexicon.countP (fun w => decide (go w <:+: text))

/-- The elements of a list without repetition, in the order of first occurrence. -/
def firstSeen : List GoString → List GoString
  | [] => []
  | k :: rest => k :: (firstSeen rest).filter (fun x => decide (x ≠ k))

/-- The concatenation of the `Keywords` of `reflections[0..9]`. -/
def recentKeywords (reflections : List Reflection) : List GoString :=
  (reflections.take 10).flatMap (fun r => r.Keywords)

/-- The number of reflections carrying the sentiment `label`. -/
def sentimentCount (reflections : List Reflection) (label : GoString) : Nat :=
  reflections.countP (fun r => decide (r.Sentiment = label))

/-- The number of reflections of type `k`. -/
def typeCount (reflections : List Reflection) (k : GoString) : Nat :=
  reflections.countP (fun r => decide (r.Type_ = k))

/-- The string begins with a white-space rune. -/
def beginsWithSpace (s : GoString) : Prop := ∃ e ∈ spaceEncodings, e <+: s

/-- The string ends with a white-space rune. -/
def endsWithSpace (s : GoString) : Prop := ∃ e ∈ spaceEncodings, e <:+ s

/-! ## Sample data -/

/-- A reflection with the given keywords, sentiment and type, other fields unset. -/
def sampleReflection (keywords : List String) (sentiment type_ : String) : Reflection :=
  { ID := NilObjectID, EntryID := NilObjectID, UserID := go "user123", Content := go "",
    Type_ := go type_, Keywords := keywords.map go, Sentiment := go sentiment, CreatedAt := 0 }

/-- Ten reflections that all carry the keyword `work`, each with one keyword of its own. -/
def tenWithWork : List Reflection :=
  [sampleReflection ["work", "k0"] "" "insight", sampleReflection ["work", "k1"] "" "insight",
   sampleReflection ["work", "k2"] "" "insight", sampleReflection ["work", "k3"] "" "insight",
   sampleReflection ["work", "k4"] "" "insight", sampleReflection ["work", "k5"] "" "insight",
   sampleReflection ["work", "k6"] "" "insight", sampleReflection ["work", "k7"] "" "insight",
   sampleReflection ["work", "k8"] "" "insight", sampleReflection ["work", "k9"] "" "insight"]

/-- A run in which `range` visits the keys in the order of insertion. -/
def rangeInserted (m : GoMap) : List GoString := mapKeys m

/-- A run in which `range` visits the keys in the reverse order of insertion. -/
def rangeReversed (m : GoMap) : List GoString := (mapKeys m).reverse

/-- The configuration of a process started without `OPENAI_API_KEY` and without
`USE_LOCAL_MODEL` (the defaults of `LoadConfig`). -/
def defaultConfig : Config :=
  { OpenAIAPIKey := go ""
    OpenAIModel := go "gpt-3.5-turbo"
    LocalModelURL := go "http://localhost:11434"
    LocalModelName := go "llama3"
    UseLocalModel := false }

/-- A world outside in which the store never fails, the clock advances by one at every
reading from 1000 on, and the hosted model answers reflection requests (500 tokens) but
fails keyword requests. -/
def sampleEnv (config : Config) : Env :=
  { config := config
    CreateChatCompletion := fun req =>
      if req.MaxTokens = 500 then .ok [go "It sounds like a wonderful day."]
      else .error (.library (go "error, status code: 429"))
    Post := fun _ _ => .error (.library (go "connection refused"))
    Unmarshal := fun _ => .error (.library (go "unexpected end of JSON input"))
    clock := fun n => 1000 + (n : Int)
    newObjectID := fun n => ⟨List.replicate 11 0 ++ [UInt8.ofNat (n + 1)]⟩
    dbError := fun _ _ => none }

/-- A journal entry of user `user123`, stored under the identifier `abab...ab`. -/
def sampleEntry : JournalEntry :=
  { ID := ⟨List.replicate 12 171⟩
    UserID := go "user123"
    Title := go "Monday"
    Content := go "A long day at work."
    Tags := []
    Mood := go ""
    CreatedAt := 10
    UpdatedAt := 10 }

/-- A store holding `sampleEntry` and no reflection. -/
def sampleWorld : World :=
  { journal_entries := [sampleEntry], reflections := [], readings := 0, generated := 0,
    backendCalls := [] }

/-- A request for a reflection of the given kind on `sampleEntry`. -/
def sampleRequest (kind : String) : ReflectionRequest :=
  { EntryID := go "abababababababababababab", Type_ := go kind }

/-- A valid creation request (title and content present). -/
def sampleCreate : CreateJournalRequest :=
  { Title := go "Tuesday", Content := go "Slept well.", Tags := [go "rest"], Mood := go "calm" }

/-- A well-formed identifier under which `sampleWorld` stores nothing. -/
def missingID : GoString := go "cdcdcdcdcdcdcdcdcdcdcdcd"

/-- A malformed identifier. -/
def malformedID : GoString := go "not-an-id"

/-- A journal entry of another user, `user456`, stored under the identifier `cdcd...cd`. -/
def otherEntry : JournalEntry :=
  { ID := ⟨List.replicate 12 205⟩
    UserID := go "user456"
    Title := go "Private"
    Content := go "Not for user123."
    Tags := []
    Mood := go ""
    CreatedAt := 20
    UpdatedAt := 20 }

/-- A store shared by `user123` and `user456`: one entry and one reflection each. -/
def sharedWorld : World :=
  { journal_entries := [sampleEntry, otherEntry]
    reflections :=
      [{ sampleReflection ["work"] "neutral" "insight" with
           EntryID := sampleEntry.ID, CreatedAt := 11 },
       { sampleReflection ["secret"] "neutral" "insight" with
           EntryID := otherEntry.ID, UserID := go "user456", CreatedAt := 21 }]
    readings := 0
    generated := 0
    backendCalls := [] }

/-- A world outside in which both model services answer every request with the text
` work, family ,sleep` followed by a line feed. -/
def keywordEnv (config : Config) : Env :=
  { sampleEnv config with
    CreateChatCompletion := fun _ => .ok [go " work, family ,sleep\n"]
    Post := fun _ _ => .ok { StatusCode := 200, Body := .ok (go "{}") }
    Unmarshal := fun _ => .ok { Response := go " work, family ,sleep\n", Done := true } }

/-! ## Theorems -/

section Strings

theorem slice_nat (s : GoString) (a b : Nat) (hab : a ≤ b) (hb : b ≤ s.length) :
    slice s (a : Int) (b : Int) = some ((s.drop a).take (b - a)) := by
  have h : (0 : Int) ≤ (a : Int) ∧ (a : Int) ≤ (b : Int) ∧ (b : Int) ≤ len s := by
    refine ⟨by omega, by omega, ?_⟩
    simp only [len]; omega
  simp only [slice, h, and_self, if_true, Int.toNat_ofNat, List.drop_take]

/-- Occurrence as a contiguous block of bytes, by position. -/
theorem occurs_iff (sub s : GoString) :
    sub <:+: s ↔ ∃ k : Nat, k + sub.length ≤ s.length ∧ (s.drop k).take sub.length = sub := by
  constructor
  · rintro ⟨a, b, rfl⟩
    refine ⟨a.length, ?_, ?_⟩
    · simp only [List.length_append]; omega
    · rw [List.append_assoc, List.drop_left, List.take_left]
  · rintro ⟨k, _, hk⟩
    refine ⟨s.take k, (s.drop k).drop sub.length, ?_⟩
    have h1 : (s.drop k).take sub.length ++ (s.drop k).drop sub.length = s.drop k :=
      List.take_append_drop _ _
    rw [hk] at h1
    rw [List.append_assoc, h1, List.take_append_drop]

theorem containsMiddleLoop_spec (s substr : GoString) :
    ∀ (fuel j : Nat), 1 ≤ fuel → s.length + 2 ≤ fuel + j →
      ∃ b, containsMiddleLoop s substr fuel (j : Int) = some b ∧
        (b = true ↔ ∃ k : Nat, j ≤ k ∧ k + substr.length ≤ s.length ∧
          (s.drop k).take substr.length = substr) := by
  intro fuel
  induction fuel with
  | zero => intro j h; omega
  | succ f ih =>
    intro j _ hfj
    by_cases hc : (j : Int) ≤ len s - len substr
    · have hle : j + substr.length ≤ s.length := by simp only [len] at hc; omega
      have hs : slice s (j : Int) ((j : Int) + len substr)
          = some ((s.drop j).take substr.length) := by
        have := slice_nat s j (j + substr.length) (by omega) hle
        simpa [len] using this
      by_cases he : (s.drop j).take substr.length = substr
      · refine ⟨true, ?_, ?_⟩
        · simp [containsMiddleLoop, hc, sliceEq, hs, he]
        · simp only [true_iff]; exact ⟨j, le_refl _, hle, he⟩
      · obtain ⟨b, hb, hiff⟩ := ih (j + 1) (by omega) (by omega)
        refine ⟨b, ?_, ?_⟩
        · push_cast at hb
          simp [containsMiddleLoop, hc, sliceEq, hs, he, hb]
        · rw [hiff]
          constructor
          · rintro ⟨k, hk, h2, h3⟩; exact ⟨k, by omega, h2, h3⟩
          · rintro ⟨k, hk, h2, h3⟩
            have hne : k ≠ j := by rintro rfl; exact he h3
            exact ⟨k, by omega, h2, h3⟩
    · refine ⟨false, ?_, ?_⟩
      · simp [containsMiddleLoop, hc]
      · simp only [Bool.false_eq_true, false_iff, not_exists, not_and]
        intro k hk h2
        simp only [len] at hc
        omega

/-- The helper `containsMiddle` never panics and searches the positions `1 ..`. -/
theorem containsMiddle_spec (s substr : GoString) :
    ∃ b, containsMiddle s substr = some b ∧
      (b = true ↔ ∃ k : Nat, 1 ≤ k ∧ k + substr.length ≤ s.length ∧
        (s.drop k).take substr.length = substr) :=
  containsMiddleLoop_spec s substr (s.length + 1) 1 (by omega) (by omega)

/-- The helper `contains` never panics and decides occurrence as a contiguous block of bytes. -/
theorem contains_eq (s substr : GoString) :
    contains s substr = some (decide (substr <:+: s)) := by
  by_cases hlen : len s ≥ len substr
  swap
  · have hno : ¬ substr <:+: s := by
      intro h
      have := h.length_le
      simp only [len] at hlen; omega
    simp [contains, goAnd, hlen, hno]
  by_cases heq : s = substr
  · subst heq
    simp [contains, goAnd, goOr]
  have hl : substr.length ≤ s.length := by simp only [len] at hlen; omega
  by_cases hgt : len s > len substr
  swap
  · have hlen2 : s.length = substr.length := by simp only [len] at hgt; omega
    have hno : ¬ substr <:+: s := by
      intro h
      exact heq (h.sublist.eq_of_length hlen2.symm).symm
    simp [contains, goAnd, goOr, hlen, heq, hgt, hno]
  have hp : slice s 0 (len substr) = some ((s.drop 0).take (substr.length - 0)) := by
    have := slice_nat s 0 substr.length (by omega) hl
    simpa [len] using this
  have hq : slice s (len s - len substr) (len s)
      = some ((s.drop (s.length - substr.length)).take
          (s.length - (s.length - substr.length))) := by
    have := slice_nat s (s.length - substr.length) s.length (by omega) (le_refl _)
    have hc : ((s.length - substr.length : Nat) : Int) = len s - len substr := by
      simp only [len]; omega
    rw [hc] at this
    exact this
  obtain ⟨b, hb, hiff⟩ := containsMiddle_spec s substr
  simp only [List.drop_zero, Nat.sub_zero] at hp
  have hsub : s.length - (s.length - substr.length) = substr.length := by omega
  rw [hsub] at hq
  by_cases h0 : s.take substr.length = substr
  · have hyes : substr <:+: s := (occurs_iff substr s).2 ⟨0, by omega, by simpa using h0⟩
    simp [contains, goAnd, goOr, hlen, heq, hgt, sliceEq, hp, h0, hyes]
  by_cases h1 : (s.drop (s.length - substr.length)).take substr.length = substr
  · have hyes : substr <:+: s :=
      (occurs_iff substr s).2 ⟨s.length - substr.length, by omega, h1⟩
    simp [contains, goAnd, goOr, hlen, heq, hgt, sliceEq, hp, hq, h0, h1, hyes]
  have hfin : b = decide (substr <:+: s) := by
    cases b with
    | true =>
      obtain ⟨k, _, h2, h3⟩ := hiff.1 rfl
      have : substr <:+: s := (occurs_iff substr s).2 ⟨k, h2, h3⟩
      simp [this]
    | false =>
      have : ¬ substr <:+: s := by
        intro h
        obtain ⟨k, h2, h3⟩ := (occurs_iff substr s).1 h
        have hk : k ≠ 0 := by rintro rfl; exact h0 (by simpa using h3)
        have := hiff.2 ⟨k, by omega, h2, h3⟩
        exact Bool.false_ne_true this
      simp [this]
  simp [contains, goAnd, goOr, hlen, heq, hgt, sliceEq, hp, hq, h0, h1, hb, hfin]

end Strings


section Maps

theorem mapLookup_mapSet (m : GoMap) (k k' : GoString) (v : Int) :
    mapLookup (mapSet m k v) k' = if k' = k then some v else mapLookup m k' := by
  induction m with
  | nil =>
    by_cases h : k' = k
    · simp [mapSet, mapLookup, h]
    · have h' : ¬ k = k' := fun e => h e.symm
      simp [mapSet, mapLookup, h, h']
  | cons p rest ih =>
    obtain ⟨a, b⟩ := p
    by_cases ha : a = k
    · subst ha
      by_cases h : k' = a
      · simp [mapSet, mapLookup, h]
      · have h' : ¬ a = k' := fun e => h e.symm
        simp [mapSet, mapLookup, h, h']
    · by_cases h : a = k'
      · have h2 : ¬ k' = k := by rw [← h]; exact ha
        simp [mapSet, mapLookup, ha, h, h2]
      · simp [mapSet, mapLookup, ha, h, ih]

theorem mapLookup_mapIncr (m : GoMap) (k k' : GoString) :
    mapLookup (mapIncr m k) k' = if k' = k then some (mapGet m k + 1) else mapLookup m k' :=
  mapLookup_mapSet m k k' _

theorem mem_mapKeys_iff (m : GoMap) (k : GoString) :
    k ∈ mapKeys m ↔ (mapLookup m k).isSome = true := by
  induction m with
  | nil => simp [mapKeys, mapLookup]
  | cons p rest ih =>
    obtain ⟨a, b⟩ := p
    by_cases h : a = k
    · simp [mapKeys, mapLookup, h]
    · have h' : ¬ k = a := fun e => h e.symm
      simp only [mapKeys, List.map_cons, List.mem_cons, h', false_or, mapLookup, h, if_false]
      exact ih

theorem mem_mapKeys_mapIncr (m : GoMap) (k k' : GoString) :
    k' ∈ mapKeys (mapIncr m k) ↔ k' = k ∨ k' ∈ mapKeys m := by
  rw [mem_mapKeys_iff, mem_mapKeys_iff, mapLookup_mapIncr]
  by_cases h : k' = k
  · simp [h]
  · simp [h]

theorem mapKeys_mapSet (m : GoMap) (k : GoString) (v : Int) :
    mapKeys (mapSet m k v) = if k ∈ mapKeys m then mapKeys m else mapKeys m ++ [k] := by
  induction m with
  | nil => simp [mapSet, mapKeys]
  | cons p rest ih =>
    obtain ⟨a, b⟩ := p
    by_cases h : a = k
    · simp [mapSet, mapKeys, h]
    · have h' : ¬ k = a := fun e => h e.symm
      simp only [mapKeys] at ih
      simp only [mapSet, h, if_false, mapKeys, List.map_cons, List.mem_cons, h', false_or, ih]
      split <;> simp

theorem nodup_mapKeys_mapIncr (m : GoMap) (k : GoString) (h : (mapKeys m).Nodup) :
    (mapKeys (mapIncr m k)).Nodup := by
  rw [mapIncr, mapKeys_mapSet]
  split
  · exact h
  · rename_i hk
    rw [List.nodup_append]
    refine ⟨h, List.nodup_singleton k, ?_⟩
    intro a ha hb
    rw [List.mem_singleton] at hb
    exact hk (hb ▸ ha)

theorem sum_mapValues_mapIncr (m : GoMap) (k : GoString) :
    (mapValues (mapIncr m k)).sum = (mapValues m).sum + 1 := by
  induction m with
  | nil => simp [mapIncr, mapSet, mapValues, mapGet, mapLookup]
  | cons p rest ih =>
    obtain ⟨a, b⟩ := p
    by_cases h : a = k
    · simp [mapIncr, mapSet, mapValues, mapGet, mapLookup, h]
      omega
    · simp only [mapIncr, mapGet, mapValues] at ih
      simp only [mapIncr, mapGet, mapLookup, h, if_false, mapSet, mapValues, List.map_cons,
        List.sum_cons, ih]
      omega

end Maps

section Themes

theorem mem_mapKeys_countKeywords (ks : List GoString) :
    ∀ (m : GoMap) (k : GoString),
      k ∈ mapKeys (countKeywords m ks) ↔ k ∈ mapKeys m ∨ k ∈ ks := by
  induction ks with
  | nil => intro m k; simp [countKeywords]
  | cons a rest ih =>
    intro m k
    rw [countKeywords, ih, mem_mapKeys_mapIncr, List.mem_cons]
    constructor
    · rintro ((h | h) | h)
      · exact Or.inr (Or.inl h)
      · exact Or.inl h
      · exact Or.inr (Or.inr h)
    · rintro (h | h | h)
      · exact Or.inl (Or.inr h)
      · exact Or.inl (Or.inl h)
      · exact Or.inr h

theorem nodup_mapKeys_countKeywords (ks : List GoString) :
    ∀ m : GoMap, (mapKeys m).Nodup → (mapKeys (countKeywords m ks)).Nodup := by
  induction ks with
  | nil => intro m h; simpa [countKeywords] using h
  | cons a rest ih =>
    intro m h
    rw [countKeywords]
    exact ih _ (nodup_mapKeys_mapIncr m a h)

/-- The map built by the first loop over a list of reflections. -/
theorem mem_mapKeys_foldl (rs : List Reflection) :
    ∀ (m : GoMap) (k : GoString),
      k ∈ mapKeys (rs.foldl (fun m r => countKeywords m r.Keywords) m)
        ↔ k ∈ mapKeys m ∨ k ∈ rs.flatMap (fun r => r.Keywords) := by
  induction rs with
  | nil => intro m k; simp
  | cons r rest ih =>
    intro m k
    rw [List.foldl_cons, ih, mem_mapKeys_countKeywords, List.flatMap_cons, List.mem_append,
      or_assoc]

theorem nodup_mapKeys_foldl (rs : List Reflection) :
    ∀ m : GoMap, (mapKeys m).Nodup →
      (mapKeys (rs.foldl (fun m r => countKeywords m r.Keywords) m)).Nodup := by
  induction rs with
  | nil => intro m h; simpa using h
  | cons r rest ih =>
    intro m h
    rw [List.foldl_cons]
    exact ih _ (nodup_mapKeys_countKeywords r.Keywords m h)

theorem index_nat (rs : List Reflection) (i : Nat) (h : i < rs.length) :
    index rs (i : Int) = some rs[i] := by
  have hc : (0 : Int) ≤ (i : Int) ∧ (i : Int) < (rs.length : Int) := by omega
  simp only [index, hc, and_self, if_true, Int.toNat_ofNat, List.get?_eq_getElem?,
    List.getElem?_eq_getElem h]

theorem themeMapLoop_eq (rs : List Reflection) (limit : Nat) (hl : limit ≤ rs.length) :
    ∀ (fuel i : Nat) (m : GoMap), i ≤ limit → limit - i < fuel →
      themeMapLoop rs (limit : Int) fuel (i : Int) m
        = some (((rs.drop i).take (limit - i)).foldl
            (fun m r => countKeywords m r.Keywords) m) := by
  intro fuel
  induction fuel with
  | zero => intro i m _ h; omega
  | succ f ih =>
    intro i m hi hf
    by_cases hc : (i : Int) < (limit : Int)
    · have hlt : i < limit := by omega
      have hlen : i < rs.length := by omega
      have hrec := ih (i + 1) (countKeywords m rs[i].Keywords) (by omega) (by omega)
      push_cast at hrec
      have hsplit : (rs.drop i).take (limit - i)
          = rs[i] :: (rs.drop (i + 1)).take (limit - (i + 1)) := by
        have h1 : limit - i = (limit - (i + 1)) + 1 := by omega
        rw [h1, List.drop_eq_getElem_cons hlen, List.take_succ_cons]
      simp only [themeMapLoop, hc, if_true, index_nat rs i hlen, hrec, hsplit, List.foldl_cons]
    · have hz : limit - i = 0 := by omega
      simp [themeMapLoop, hc, hz]

theorem themeLimit_eq (rs : List Reflection) :
    themeLimit rs = ((min 10 rs.length : Nat) : Int) := by
  simp only [themeLimit]
  split <;> omega

/-- The first loop of `extractRecentThemes` never panics; the map it builds has
exactly the keywords of the first ten reflections as keys. -/
theorem themeMap_spec (rs : List Reflection) :
    ∃ themeMap : GoMap,
      themeMapLoop rs (themeLimit rs) 11 0 [] = some themeMap ∧
      themeMap = (rs.take 10).foldl (fun m r => countKeywords m r.Keywords) [] ∧
      (mapKeys themeMap).Nodup ∧
      ∀ k, k ∈ mapKeys themeMap ↔ k ∈ recentKeywords rs := by
  have h := themeMapLoop_eq rs (min 10 rs.length) (Nat.min_le_right _ _) 11 0 []
    (Nat.zero_le _) (by omega)
  have ht : (rs.drop 0).take (min 10 rs.length - 0) = rs.take 10 := by
    rw [List.drop_zero, Nat.sub_zero]
    apply List.ext_getElem?
    intro n
    simp only [List.getElem?_take]
    by_cases h1 : n < 10
    · by_cases h2 : n < rs.length
      · have : n < min 10 rs.length := by omega
        simp [h1, this]
      · have : ¬ n < min 10 rs.length := by omega
        have h3 : rs.length ≤ n := by omega
        simp [h1, this, List.getElem?_eq_none h3]
    · have : ¬ n < min 10 rs.length := by omega
      simp [h1, this]
  rw [ht] at h
  refine ⟨_, ?_, rfl, ?_, ?_⟩
  · rw [themeLimit_eq]; exact h
  · exact nodup_mapKeys_foldl _ [] (by simp [mapKeys])
  · intro k
    rw [mem_mapKeys_foldl]
    simp [mapKeys, recentKeywords]

theorem collectThemes_eq (order : List GoString) :
    ∀ acc : List GoString, acc.length < 5 →
      collectThemes order acc = acc ++ order.take (5 - acc.length) := by
  induction order with
  | nil => intro acc _; simp [collectThemes]
  | cons t rest ih =>
    intro acc hacc
    by_cases h : acc.length + 1 < 5
    · have hc : ¬ ((acc.length : Int) + 1 ≥ 5) := by omega
      have h5 : 5 - acc.length = (5 - (acc.length + 1)) + 1 := by omega
      have := ih (acc ++ [t]) (by simpa using h)
      simp only [List.length_append, List.length_singleton] at this
      simp only [collectThemes, List.length_append, List.length_singleton, Nat.cast_add,
        Nat.cast_one, hc, if_false, this, h5, List.take_succ_cons, List.append_assoc,
        List.singleton_append]
    · have hc : (acc.length : Int) + 1 ≥ 5 := by omega
      have h5 : 5 - acc.length = 1 := by omega
      simp [collectThemes, hc, h5]

theorem nodup_firstSeen (ks : List GoString) : (firstSeen ks).Nodup := by
  induction ks with
  | nil => simp [firstSeen]
  | cons k rest ih =>
    simp only [firstSeen, List.nodup_cons, List.mem_filter, decide_eq_true_eq, ne_eq,
      not_true_eq_false, and_false, not_false_eq_true, true_and]
    exact ih.filter _

theorem mem_firstSeen (ks : List GoString) (x : GoString) : x ∈ firstSeen ks ↔ x ∈ ks := by
  induction ks with
  | nil => simp [firstSeen]
  | cons k rest ih =>
    simp only [firstSeen, List.mem_cons, List.mem_filter, decide_eq_true_eq, ih]
    by_cases h : x = k
    · simp [h]
    · simp [h]

end Themes

section Sentiment

theorem countWords_eq (content : GoString) (words : List GoString) (count : Int) :
    countWords content words count
      = some (count + (words.countP (fun w => decide (w <:+: content)) : Nat)) := by
  induction words generalizing count with
  | nil => simp [countWords]
  | cons w rest ih =>
    by_cases h : w <:+: content
    · simp [countWords, contains_eq, h, ih, List.countP_cons]; omega
    · simp [countWords, contains_eq, h, ih, List.countP_cons]

theorem lexicon_count (lexicon : List String) (content : GoString) :
    (lexicon.map go).countP (fun w => decide (w <:+: content)) = occurring lexicon content := by
  simp only [occurring, List.countP_map]
  rfl

end Sentiment

/-- C1: `extractSentiment` returns "positive" when more positive-lexicon words than
negative-lexicon words occur in the text as contiguous substrings, "negative" in the
reverse case and "neutral" otherwise, each lexicon word counting once. -/
theorem extractSentiment_spec (content : GoString) :
    extractSentiment content = some (
      if occurring ["sad", "angry", "frustrated", "worried", "anxious", "terrible", "awful",
            "horrible"] content
          < occurring ["happy", "joy", "grateful", "excited", "love", "wonderful", "amazing",
            "great"] content
      then go "positive"
      else if occurring ["happy", "joy", "grateful", "excited", "love", "wonderful", "amazing",
            "great"] content
          < occurring ["sad", "angry", "frustrated", "worried", "anxious", "terrible", "awful",
            "horrible"] content
      then go "negative"
      else go "neutral") := by
  have hp : positive = ["happy", "joy", "grateful", "excited", "love", "wonderful", "amazing",
      "great"].map go := rfl
  have hn : negative = ["sad", "angry", "frustrated", "worried", "anxious", "terrible", "awful",
      "horrible"].map go := rfl
  simp only [extractSentiment, countWords_eq, hp, hn, lexicon_count, zero_add, gt_iff_lt,
    Nat.cast_lt]
  repeat' split
  all_goals rfl

/-- C2: the three sample sentences of the specification are classified as positive,
negative and neutral. -/
theorem extractSentiment_examples :
    extractSentiment (go "I feel happy and grateful today") = some (go "positive") ∧
    extractSentiment (go "I am sad and anxious") = some (go "negative") ∧
    extractSentiment (go "The weather is cloudy") = some (go "neutral") := by
  decide


section ThemesMain

theorem extractRecentThemes_eq (range : GoMap → List GoString) (rs : List Reflection) :
    extractRecentThemes range rs
      = some ((range ((rs.take 10).foldl (fun m r => countKeywords m r.Keywords) [])).take 5) := by
  obtain ⟨tm, h1, h2, _, _⟩ := themeMap_spec rs
  have hc : collectThemes (range tm) [] = (range tm).take 5 :=
    collectThemes_eq (range tm) [] (Nat.succ_pos 4)
  unfold extractRecentThemes
  simp only [h1]
  rw [hc, h2]

theorem rangeOrder_perm_firstSeen (range : GoMap → List GoString) (h : RangeOrder range)
    (rs : List Reflection) :
    (range ((rs.take 10).foldl (fun m r => countKeywords m r.Keywords) [])).Perm
      (firstSeen (recentKeywords rs)) := by
  obtain ⟨tm, _, h2, h3, h4⟩ := themeMap_spec rs
  subst h2
  refine (h _).trans ?_
  rw [List.perm_ext_iff_of_nodup h3 (nodup_firstSeen _)]
  intro k
  rw [h4, mem_firstSeen]

theorem rangeOrder_rangeReversed : RangeOrder rangeReversed :=
  fun m => List.reverse_perm (mapKeys m)

theorem rangeOrder_rangeInserted : RangeOrder rangeInserted :=
  fun m => List.Perm.refl (mapKeys m)

end ThemesMain

/-- C3 (the code at the failing input): in a run whose map iteration visits the keys in
reverse insertion order, a single reflection with keywords "work", "family" yields the themes
"family", "work", which is not the first-seen order; and ten reflections that all carry
"work" yield "k9", "k8", "k7", "k6", "k5": the keyword seen first, and counted ten times in
`themeMap`, is not among the themes, while the first-seen order begins with it. -/
theorem extractRecentThemes_not_firstSeen :
    RangeOrder rangeReversed ∧
    extractRecentThemes rangeReversed [sampleReflection ["work", "family"] "" "insight"]
      = some [go "family", go "work"] ∧
    extractRecentThemes rangeReversed [sampleReflection ["work", "family"] "" "insight"]
      ≠ some ((firstSeen (recentKeywords
          [sampleReflection ["work", "family"] "" "insight"])).take 5) ∧
    extractRecentThemes rangeReversed tenWithWork
      = some [go "k9", go "k8", go "k7", go "k6", go "k5"] ∧
    (firstSeen (recentKeywords tenWithWork)).take 5
      = [go "work", go "k0", go "k1", go "k2", go "k3"] ∧
    mapLookup (tenWithWork.foldl (fun m r => countKeywords m r.Keywords) []) (go "work")
      = some 10 :=
  ⟨rangeOrder_rangeReversed, by decide, by decide, by decide, by decide, by decide⟩

/-- C4: in every run and for every list of reflections, `extractRecentThemes` returns at
most 5 themes, without duplicate, each a keyword of one of the first 10 reflections; the
result is the one obtained from the first 10 reflections alone. -/
theorem extractRecentThemes_bounds (range : GoMap → List GoString) (h : RangeOrder range)
    (rs : List Reflection) :
    ∃ themes : List GoString,
      extractRecentThemes range rs = some themes ∧
      themes.length ≤ 5 ∧
      themes.Nodup ∧
      (∀ t ∈ themes, ∃ r ∈ rs.take 10, t ∈ r.Keywords) ∧
      extractRecentThemes range (rs.take 10) = some themes := by
  have hperm := rangeOrder_perm_firstSeen range h rs
  refine ⟨_, extractRecentThemes_eq range rs, ?_, ?_, ?_, ?_⟩
  · rw [List.length_take]; exact Nat.min_le_left _ _
  · exact ((hperm.nodup_iff).2 (nodup_firstSeen _)).sublist (List.take_sublist _ _)
  · intro t ht
    have h1 : t ∈ firstSeen (recentKeywords rs) := hperm.mem_iff.1 (List.mem_of_mem_take ht)
    rw [mem_firstSeen, recentKeywords, List.mem_flatMap] at h1
    exact h1
  · rw [extractRecentThemes_eq, List.take_take, Nat.min_self]

/-- Witness of `extractRecentThemes_bounds`: twelve reflections, insertion-order iteration. -/
theorem extractRecentThemes_bounds_witness :
    RangeOrder rangeInserted ∧
    ∃ themes : List GoString,
      extractRecentThemes rangeInserted
        (List.replicate 10 (sampleReflection ["a", "b", "c", "d", "e", "f"] "" "insight")
          ++ List.replicate 2 (sampleReflection ["late"] "" "insight")) = some themes ∧
      themes.length ≤ 5 ∧
      themes.Nodup ∧
      (∀ t ∈ themes, ∃ r ∈ (List.replicate 10
          (sampleReflection ["a", "b", "c", "d", "e", "f"] "" "insight")
          ++ List.replicate 2 (sampleReflection ["late"] "" "insight")).take 10,
        t ∈ r.Keywords) ∧
      extractRecentThemes rangeInserted ((List.replicate 10
          (sampleReflection ["a", "b", "c", "d", "e", "f"] "" "insight")
          ++ List.replicate 2 (sampleReflection ["late"] "" "insight")).take 10)
        = some themes :=
  ⟨rangeOrder_rangeInserted,
   extractRecentThemes_bounds rangeInserted rangeOrder_rangeInserted _⟩


section Counts

theorem mapGet_of_lookup (m : GoMap) (k : GoString) (v : Int) (h : mapLookup m k = some v) :
    mapGet m k = v := by
  simp [mapGet, h]

theorem lookup_sentiments_foldl (k : GoString) (hk : k ≠ go "") (rs : List Reflection) :
    ∀ (m : GoMap) (v : Int), mapLookup m k = some v →
      mapLookup (rs.foldl
        (fun sentiments reflection =>
          let sentiment := reflection.Sentiment
          if sentiment ≠ go "" then mapIncr sentiments sentiment else sentiments) m) k
        = some (v + (sentimentCount rs k : Nat)) := by
  induction rs with
  | nil => intro m v h; simpa [sentimentCount] using h
  | cons r rest ih =>
    intro m v h
    rw [List.foldl_cons]
    by_cases hs : r.Sentiment = k
    · have hne : r.Sentiment ≠ go "" := hs ▸ hk
      have h1 : mapLookup (mapIncr m r.Sentiment) k = some (v + 1) := by
        rw [mapLookup_mapIncr, if_pos hs.symm, hs, mapGet_of_lookup m k v h]
      have := ih (mapIncr m r.Sentiment) (v + 1) h1
      have hcount : sentimentCount (r :: rest) k = sentimentCount rest k + 1 := by
        simp [sentimentCount, List.countP_cons, hs]
      dsimp only
      rw [if_pos hne, this, hcount]
      push_cast
      rw [add_assoc, add_comm (1 : Int)]
    · have hcount : sentimentCount (r :: rest) k = sentimentCount rest k := by
        simp [sentimentCount, List.countP_cons, hs]
      rw [hcount]
      by_cases hne : r.Sentiment = go ""
      · simp only [hne, ne_eq, not_true_eq_false, if_false]
        exact ih m v h
      · have h1 : mapLookup (mapIncr m r.Sentiment) k = some v := by
          rw [mapLookup_mapIncr, if_neg (fun e => hs e.symm), h]
        simp only [hne, ne_eq, not_false_eq_true, if_true]
        exact ih _ v h1

theorem lookup_types_foldl (k : GoString) (rs : List Reflection) :
    ∀ m : GoMap,
      mapLookup (rs.foldl (fun types reflection => mapIncr types reflection.Type_) m) k
        = if typeCount rs k = 0 then mapLookup m k
          else some (mapGet m k + (typeCount rs k : Nat)) := by
  induction rs with
  | nil => intro m; simp [typeCount]
  | cons r rest ih =>
    intro m
    rw [List.foldl_cons, ih]
    by_cases hs : r.Type_ = k
    · have hc : typeCount (r :: rest) k = typeCount rest k + 1 := by
        simp [typeCount, List.countP_cons, hs]
      have hl : mapLookup (mapIncr m r.Type_) k = some (mapGet m k + 1) := by
        rw [mapLookup_mapIncr, if_pos hs.symm, hs]
      have hg : mapGet (mapIncr m r.Type_) k = mapGet m k + 1 := mapGet_of_lookup _ _ _ hl
      rw [hc, hl, hg]
      by_cases hz : typeCount rest k = 0
      · simp [hz]
      · simp only [hz, if_false, Nat.add_eq_zero, one_ne_zero, and_false, Nat.cast_add,
          Nat.cast_one]
        congr 1; omega
    · have hc : typeCount (r :: rest) k = typeCount rest k := by
        simp [typeCount, List.countP_cons, hs]
      have hl : mapLookup (mapIncr m r.Type_) k = mapLookup m k := by
        rw [mapLookup_mapIncr, if_neg (fun e => hs e.symm)]
      have hg : mapGet (mapIncr m r.Type_) k = mapGet m k := by
        simp only [mapGet, hl]
      rw [hc, hl, hg]

theorem nodup_types_foldl (rs : List Reflection) :
    ∀ m : GoMap, (mapKeys m).Nodup →
      (mapKeys (rs.foldl (fun types reflection => mapIncr types reflection.Type_) m)).Nodup := by
  induction rs with
  | nil => intro m h; simpa using h
  | cons r rest ih =>
    intro m h
    rw [List.foldl_cons]
    exact ih _ (nodup_mapKeys_mapIncr m r.Type_ h)

theorem sum_types_foldl (rs : List Reflection) :
    ∀ m : GoMap,
      (mapValues (rs.foldl (fun types reflection => mapIncr types reflection.Type_) m)).sum
        = (mapValues m).sum + (rs.length : Int) := by
  induction rs with
  | nil => intro m; simp
  | cons r rest ih =>
    intro m
    rw [List.foldl_cons, ih, sum_mapValues_mapIncr, List.length_cons]
    push_cast
    omega

theorem typeCount_pos_iff (rs : List Reflection) (k : GoString) :
    typeCount rs k ≠ 0 ↔ ∃ r ∈ rs, r.Type_ = k := by
  rw [typeCount, Nat.ne_zero_iff_zero_lt, List.countP_pos_iff]
  simp

end Counts

/-- C5: for every list of reflections, the map of `analyzeSentimentTrends` has the keys
"positive", "negative" and "neutral", each bound to the number of reflections whose
Sentiment is that label (0 when there is none, in particular for the empty list). -/
theorem analyzeSentimentTrends_spec (rs : List Reflection) :
    mapLookup (analyzeSentimentTrends rs) (go "positive")
      = some ((sentimentCount rs (go "positive") : Nat) : Int) ∧
    mapLookup (analyzeSentimentTrends rs) (go "negative")
      = some ((sentimentCount rs (go "negative") : Nat) : Int) ∧
    mapLookup (analyzeSentimentTrends rs) (go "neutral")
      = some ((sentimentCount rs (go "neutral") : Nat) : Int) ∧
    analyzeSentimentTrends []
      = [(go "positive", 0), (go "negative", 0), (go "neutral", 0)] := by
  refine ⟨?_, ?_, ?_, rfl⟩
  · have := lookup_sentiments_foldl (go "positive") (by decide) rs
      [(go "positive", 0), (go "negative", 0), (go "neutral", 0)] 0 (by decide)
    simpa [analyzeSentimentTrends] using this
  · have := lookup_sentiments_foldl (go "negative") (by decide) rs
      [(go "positive", 0), (go "negative", 0), (go "neutral", 0)] 0 (by decide)
    simpa [analyzeSentimentTrends] using this
  · have := lookup_sentiments_foldl (go "neutral") (by decide) rs
      [(go "positive", 0), (go "negative", 0), (go "neutral", 0)] 0 (by decide)
    simpa [analyzeSentimentTrends] using this

/-- C6: for every list of reflections, the map of `countReflectionTypes` has the key `k`
exactly when some reflection has Type `k`, each key once and bound to the number of
reflections of that Type; the map is empty for the empty list, and its values sum to the
length of the list, which is the `total_reflections` figure of `GetInsights`. -/
theorem countReflectionTypes_spec (rs : List Reflection) :
    (∀ k, k ∈ mapKeys (countReflectionTypes rs) ↔ ∃ r ∈ rs, r.Type_ = k) ∧
    (∀ k, mapLookup (countReflectionTypes rs) k
      = if typeCount rs k = 0 then none else some ((typeCount rs k : Nat) : Int)) ∧
    (mapKeys (countReflectionTypes rs)).Nodup ∧
    countReflectionTypes [] = [] ∧
    (mapValues (countReflectionTypes rs)).sum = (rs.length : Int) ∧
    (∀ range, (mapValues (aggregateInsights range rs).reflection_types).sum
      = (aggregateInsights range rs).total_reflections) ∧
    (∀ range, (aggregateInsights range rs).reflection_types = countReflectionTypes rs ∧
      (aggregateInsights range rs).total_reflections = (rs.length : Int)) := by
  have hl : ∀ k, mapLookup (countReflectionTypes rs) k
      = if typeCount rs k = 0 then none else some ((typeCount rs k : Nat) : Int) := by
    intro k
    have := lookup_types_foldl k rs []
    simpa [countReflectionTypes, mapLookup, mapGet] using this
  have hsum : (mapValues (countReflectionTypes rs)).sum = (rs.length : Int) := by
    have := sum_types_foldl rs []
    simpa [countReflectionTypes, mapValues] using this
  refine ⟨?_, hl, ?_, rfl, hsum, fun _ => hsum, fun _ => ⟨rfl, rfl⟩⟩
  · intro k
    rw [mem_mapKeys_iff, hl, ← typeCount_pos_iff]
    by_cases hz : typeCount rs k = 0
    · simp [hz]
    · simp [hz]
  · exact nodup_types_foldl rs [] (by simp [mapKeys])


section Generation

theorem ExtractKeywords_error (oai : OpenAIClient) (env : Env) (content : GoString)
    (keywords : List GoString) (err : GoError)
    (h : oai.ExtractKeywords env content = (keywords, some err)) : keywords = [] := by
  unfold OpenAIClient.ExtractKeywords OpenAIClient.extractLocalKeywords at h
  dsimp only at h
  split at h
  · split at h
    · exact (Prod.mk.inj h).1.symm
    · exact absurd (Prod.mk.inj h).2 (by simp)
  · split at h
    · exact absurd (Prod.mk.inj h).2 (by simp)
    · split at h
      · exact (Prod.mk.inj h).1.symm
      · split at h
        · exact absurd (Prod.mk.inj h).2 (by simp)
        · exact absurd (Prod.mk.inj h).2 (by simp)

theorem extractSentiment_total (content : GoString) :
    ∃ sentiment, extractSentiment content = some sentiment := by
  simp only [extractSentiment, countWords_eq]
  split
  · exact ⟨_, rfl⟩
  · split
    · exact ⟨_, rfl⟩
    · exact ⟨_, rfl⟩

end Generation


section GenerationMain

/-- The successful path of `AIService.GenerateReflection`, step by step. -/
theorem GenerateReflection_success (env : Env) (w : World) (userID : GoString)
    (req : ReflectionRequest) (entry : JournalEntry) (content : GoString)
    (hentry : JournalService.GetEntryByID env w userID req.EntryID = .ok entry)
    (hgen : (NewOpenAIClient env.config).GenerateReflection env entry.Content
      (if req.Type_ = go "" then go "insight" else req.Type_) = .ok content)
    (hins : env.dbError .reflections .InsertOne = none) :
    ∃ sentiment, extractSentiment content = some sentiment ∧
      AIService.GenerateReflection env w userID req
        = some (.ok
            { ID := env.newObjectID w.generated
              EntryID := entry.ID
              UserID := userID
              Content := content
              Type_ := if req.Type_ = go "" then go "insight" else req.Type_
              Keywords := ((NewOpenAIClient env.config).ExtractKeywords env entry.Content).1
              Sentiment := sentiment
              CreatedAt := env.clock w.readings },
            { journal_entries := w.journal_entries
              reflections := w.reflections ++
                [{ ID := env.newObjectID w.generated
                   EntryID := entry.ID
                   UserID := userID
                   Content := content
                   Type_ := if req.Type_ = go "" then go "insight" else req.Type_
                   Keywords := ((NewOpenAIClient env.config).ExtractKeywords env entry.Content).1
                   Sentiment := sentiment
                   CreatedAt := env.clock w.readings }]
              readings := w.readings + 1
              generated := w.generated + 1
              backendCalls := w.backendCalls ++
                [(entry.Content, if req.Type_ = go "" then go "insight" else req.Type_)] }) := by
  obtain ⟨sentiment, hs⟩ := extractSentiment_total content
  refine ⟨sentiment, hs, ?_⟩
  simp only [AIService.GenerateReflection, hentry, hgen, hs, timeNow, insertOneReflection, hins]

end GenerationMain

/-- C7: when `AIService.GenerateReflection` succeeds, the kind it passed to the model client
and the Type of the reflection it stored and returned are "insight" if the request's Type is
empty, and the request's Type unchanged otherwise. -/
theorem GenerateReflection_kind (env : Env) (w w' : World) (userID : GoString)
    (req : ReflectionRequest) (r : Reflection)
    (h : AIService.GenerateReflection env w userID req = some (.ok r, w')) :
    r.Type_ = (if req.Type_ = go "" then go "insight" else req.Type_) ∧
    w'.reflections = w.reflections ++ [r] ∧
    ∃ entry, JournalService.GetEntryByID env w userID req.EntryID = .ok entry ∧
      w'.backendCalls = w.backendCalls ++
        [(entry.Content, if req.Type_ = go "" then go "insight" else req.Type_)] ∧
      (NewOpenAIClient env.config).GenerateReflection env entry.Content
        (if req.Type_ = go "" then go "insight" else req.Type_) = .ok r.Content := by
  cases hentry : JournalService.GetEntryByID env w userID req.EntryID with
  | error err => simp [AIService.GenerateReflection, hentry] at h
  | ok entry =>
    cases hgen : (NewOpenAIClient env.config).GenerateReflection env entry.Content
        (if req.Type_ = go "" then go "insight" else req.Type_) with
    | error err => simp [AIService.GenerateReflection, hentry, hgen] at h
    | ok content =>
      cases hins : env.dbError .reflections .InsertOne with
      | some err =>
        obtain ⟨sentiment, hs⟩ := extractSentiment_total content
        simp [AIService.GenerateReflection, hentry, hgen, hs, timeNow, insertOneReflection,
          hins] at h
      | none =>
        obtain ⟨sentiment, _, hres⟩ :=
          GenerateReflection_success env w userID req entry content hentry hgen hins
        rw [hres] at h
        have hpair := Option.some.inj h
        have hr := Except.ok.inj (Prod.mk.inj hpair).1
        have hw := (Prod.mk.inj hpair).2
        subst hr
        subst hw
        exact ⟨rfl, rfl, entry, rfl, rfl, hgen⟩

/-- Witness of `GenerateReflection_kind`: a request without Type on the sample store. -/
theorem GenerateReflection_kind_witness :
    ∃ r w', AIService.GenerateReflection (sampleEnv defaultConfig) sampleWorld (go "user123")
        (sampleRequest "") = some (.ok r, w') ∧
      r.Type_ = go "insight" ∧
      w'.backendCalls = [(sampleEntry.Content, go "insight")] :=
  ⟨_, _, rfl,
    (GenerateReflection_kind (sampleEnv defaultConfig) sampleWorld _ (go "user123")
      (sampleRequest "") _ rfl).1,
    by decide⟩


/-- C8 (the code at the failing input): a request whose Type is "poem" succeeds, and the
reflection stored and returned has Type "poem", which is none of "insight", "summary",
"analysis". -/
theorem GenerateReflection_stores_unknown_kind :
    ∃ r w', AIService.GenerateReflection (sampleEnv defaultConfig) sampleWorld (go "user123")
        (sampleRequest "poem") = some (.ok r, w') ∧
      w'.reflections = [r] ∧
      r.Type_ = go "poem" ∧
      r.Type_ ∉ [go "insight", go "summary", go "analysis"] :=
  ⟨_, _, rfl, by decide, by decide, by decide⟩

/-- C9: if the user-scoped lookup of the entry succeeds, the model client generates the
reflection text, its keyword extraction returns an error and the insert succeeds, then
`AIService.GenerateReflection` returns no error: it returns the reflection it has stored,
whose keyword list is empty. -/
theorem GenerateReflection_keyword_failure (env : Env) (w : World) (userID : GoString)
    (req : ReflectionRequest) (entry : JournalEntry) (content : GoString)
    (keywords : List GoString) (err : GoError)
    (hentry : JournalService.GetEntryByID env w userID req.EntryID = .ok entry)
    (hgen : (NewOpenAIClient env.config).GenerateReflection env entry.Content
      (if req.Type_ = go "" then go "insight" else req.Type_) = .ok content)
    (hkw : (NewOpenAIClient env.config).ExtractKeywords env entry.Content
      = (keywords, some err))
    (hins : env.dbError .reflections .InsertOne = none) :
    ∃ r w', AIService.GenerateReflection env w userID req = some (.ok r, w') ∧
      r.Keywords = [] ∧
      r.Content = content ∧
      r.EntryID = entry.ID ∧
      w'.reflections = w.reflections ++ [r] := by
  obtain ⟨sentiment, _, hres⟩ :=
    GenerateReflection_success env w userID req entry content hentry hgen hins
  have hk : keywords = [] := ExtractKeywords_error _ env entry.Content keywords err hkw
  refine ⟨_, _, hres, ?_, rfl, rfl, rfl⟩
  show ((NewOpenAIClient env.config).ExtractKeywords env entry.Content).1 = []
  rw [hkw, hk]

/-- Witness of `GenerateReflection_keyword_failure`: the hosted model is configured, answers
the reflection request and fails the keyword request. -/
theorem GenerateReflection_keyword_failure_witness :
    (NewOpenAIClient (sampleEnv { defaultConfig with OpenAIAPIKey := go "sk-test" }).config).ExtractKeywords
        (sampleEnv { defaultConfig with OpenAIAPIKey := go "sk-test" }) sampleEntry.Content
      = ([], some (.library (go "error, status code: 429"))) ∧
    ∃ r w', AIService.GenerateReflection
        (sampleEnv { defaultConfig with OpenAIAPIKey := go "sk-test" }) sampleWorld
        (go "user123") (sampleRequest "summary") = some (.ok r, w') ∧
      r.Keywords = [] ∧
      r.Content = go "It sounds like a wonderful day." ∧
      r.EntryID = sampleEntry.ID ∧
      w'.reflections = sampleWorld.reflections ++ [r] :=
  ⟨rfl,
   GenerateReflection_keyword_failure
    (sampleEnv { defaultConfig with OpenAIAPIKey := go "sk-test" }) sampleWorld (go "user123")
    (sampleRequest "summary") sampleEntry (go "It sounds like a wonderful day.") []
    (.library (go "error, status code: 429")) rfl rfl rfl rfl⟩

section Creation

/-- The two time stamps of a created entry are the next two readings of the clock. -/
theorem CreateEntry_readings (env : Env) (w w' : World) (userID : GoString)
    (req : CreateJournalRequest) (entry : JournalEntry)
    (h : JournalService.CreateEntry env w userID req = (.ok entry, w')) :
    entry.CreatedAt = env.clock w.readings ∧ entry.UpdatedAt = env.clock (w.readings + 1) ∧
    w'.journal_entries = w.journal_entries ++ [entry] := by
  cases hins : env.dbError .journal_entries .InsertOne with
  | some err => simp [JournalService.CreateEntry, timeNow, insertOneEntry, hins] at h
  | none =>
    simp only [JournalService.CreateEntry, timeNow, insertOneEntry, hins] at h
    have he := Except.ok.inj (Prod.mk.inj h).1
    have hw := (Prod.mk.inj h).2
    subst he
    subst hw
    exact ⟨rfl, rfl, rfl⟩

end Creation

/-- C10 (the code at the failing input): with a clock whose successive readings are 1000,
1001, ..., a valid creation request yields a stored and returned entry with CreatedAt 1000
and UpdatedAt 1001. -/
theorem CreateEntry_timestamps_differ :
    ∃ entry w', JournalService.CreateEntry (sampleEnv defaultConfig) sampleWorld (go "user123")
        sampleCreate = (.ok entry, w') ∧
      w'.journal_entries = sampleWorld.journal_entries ++ [entry] ∧
      entry.CreatedAt = 1000 ∧
      entry.UpdatedAt = 1001 ∧
      entry.CreatedAt ≠ entry.UpdatedAt :=
  ⟨_, _, rfl, by decide, by decide, by decide, by decide⟩


section Prompts

theorem go_summary_instruction :
    go "Please provide a concise summary of this journal entry, highlighting the main themes and emotions:\n\n"
      = go "Please provide a concise summary of this journal entry, highlighting the main themes and emotions:"
        ++ go "\n\n" := by
  decide

theorem go_analysis_instruction :
    go "Please provide a thoughtful analysis of this journal entry, identifying patterns, emotions, and potential insights for personal growth:\n\n"
      = go "Please provide a thoughtful analysis of this journal entry, identifying patterns, emotions, and potential insights for personal growth:"
        ++ go "\n\n" := by
  decide

theorem go_insight_instruction :
    go "Please provide a thoughtful reflection on this journal entry, offering gentle insights and perspectives that might help with self-understanding and growth:\n\n"
      = go "Please provide a thoughtful reflection on this journal entry, offering gentle insights and perspectives that might help with self-understanding and growth:"
        ++ go "\n\n" := by
  decide

end Prompts

/-- C15: for every entry text, `buildPrompt` with a kind other than "summary" and "analysis"
(the empty and the unknown kinds included) is `buildPrompt` with "insight"; and for every kind
the prompt is the fixed instruction of the kind, a blank line, and the entry text verbatim. -/
theorem buildPrompt_spec (content : GoString) :
    OpenAIClient.buildPrompt content (go "summary")
      = go "Please provide a concise summary of this journal entry, highlighting the main themes and emotions:"
        ++ go "\n\n" ++ content ∧
    OpenAIClient.buildPrompt content (go "analysis")
      = go "Please provide a thoughtful analysis of this journal entry, identifying patterns, emotions, and potential insights for personal growth:"
        ++ go "\n\n" ++ content ∧
    ∀ kind : GoString, kind ≠ go "summary" → kind ≠ go "analysis" →
      OpenAIClient.buildPrompt content kind = OpenAIClient.buildPrompt content (go "insight") ∧
      OpenAIClient.buildPrompt content kind
        = go "Please provide a thoughtful reflection on this journal entry, offering gentle insights and perspectives that might help with self-understanding and growth:"
          ++ go "\n\n" ++ content := by
  refine ⟨?_, ?_, ?_⟩
  · rw [OpenAIClient.buildPrompt, if_pos rfl, go_summary_instruction]
  · have h : go "analysis" ≠ go "summary" := by decide
    rw [OpenAIClient.buildPrompt, if_neg h, if_pos rfl, go_analysis_instruction]
  · intro kind h1 h2
    have h3 : go "insight" ≠ go "summary" := by decide
    have h4 : go "insight" ≠ go "analysis" := by decide
    refine ⟨?_, ?_⟩
    · rw [OpenAIClient.buildPrompt, if_neg h1, if_neg h2, OpenAIClient.buildPrompt, if_neg h3,
        if_neg h4]
    · rw [OpenAIClient.buildPrompt, if_neg h1, if_neg h2, go_insight_instruction]

/-- Witness of `buildPrompt_spec`: the unknown kind "poem" and the empty kind. -/
theorem buildPrompt_spec_witness :
    (go "poem" ≠ go "summary" ∧ go "poem" ≠ go "analysis" ∧
      OpenAIClient.buildPrompt (go "Slept well.") (go "poem")
        = OpenAIClient.buildPrompt (go "Slept well.") (go "insight")) ∧
    (go "" ≠ go "summary" ∧ go "" ≠ go "analysis" ∧
      OpenAIClient.buildPrompt (go "Slept well.") (go "")
        = OpenAIClient.buildPrompt (go "Slept well.") (go "insight")) :=
  ⟨⟨by decide, by decide,
     ((buildPrompt_spec (go "Slept well.")).2.2 (go "poem") (by decide) (by decide)).1⟩,
   ⟨by decide, by decide,
     ((buildPrompt_spec (go "Slept well.")).2.2 (go "") (by decide) (by decide)).1⟩⟩

/-- C17 (as stated, refuted): there are no strings `s` and `substr` on which `contains`
differs from whether `substr` occurs in `s` as a contiguous block of bytes. -/
theorem contains_never_differs :
    ¬ ∃ s substr : GoString, contains s substr ≠ some (decide (substr <:+: s)) := by
  rintro ⟨s, substr, h⟩
  exact h (contains_eq s substr)

/-- C17 (amended): for all strings, `contains(s, substr)` returns without panic and is true
exactly when `substr` occurs in `s` as a contiguous block of bytes, the empty `substr`
included; the search distinguishes upper and lower case. -/
theorem contains_is_substring_search (s substr : GoString) :
    (contains s substr = some true ↔ substr <:+: s) ∧
    (contains s substr = some false ↔ ¬ substr <:+: s) ∧
    contains s (go "") = some true ∧
    contains (go "Happy days") (go "happy") = some false := by
  have h := contains_eq s substr
  refine ⟨?_, ?_, ?_, by decide⟩
  · rw [h]; simp
  · rw [h]; simp
  · rw [contains_eq]
    have : go "" <:+: s := List.nil_infix
    simp [this]


section Controllers

/-- Whatever error the service returns, the reflection handler answers 500. -/
theorem reflect_error_status (env : Env) (w w' : World) (req : ReflectionRequest)
    (err : GoError) (hid : req.EntryID ≠ go "")
    (h : AIService.GenerateReflection env w (go "user123") req = some (.error err, w')) :
    ReflectionController.GenerateReflection env w (some req)
      = some (.Error err.Error StatusInternalServerError, w') := by
  simp only [ReflectionController.GenerateReflection, hid, if_false, h]

/-- A failed lookup of the entry is returned by the service as a wrapped error. -/
theorem GenerateReflection_lookup_failure (env : Env) (w : World) (userID : GoString)
    (req : ReflectionRequest) (err : GoError)
    (h : JournalService.GetEntryByID env w userID req.EntryID = .error err) :
    AIService.GenerateReflection env w userID req
      = some (.error (.wrap (go "failed to get journal entry: ") err), w) := by
  simp only [AIService.GenerateReflection, h]

/-- A malformed identifier is refused by the three services before the store is used. -/
theorem services_invalid_id (env : Env) (w : World) (userID entryID : GoString)
    (req : CreateJournalRequest) (err : GoError) (h : ObjectIDFromHex entryID = .error err) :
    JournalService.GetEntryByID env w userID entryID
      = .error (.wrap (go "invalid entry ID: ") err) ∧
    JournalService.UpdateEntry env w userID entryID req
      = (.error (.wrap (go "invalid entry ID: ") err), w) ∧
    JournalService.DeleteEntry env w userID entryID
      = (some (.wrap (go "invalid entry ID: ") err), w, []) := by
  simp only [JournalService.GetEntryByID, JournalService.UpdateEntry,
    JournalService.DeleteEntry, h, and_self]

theorem invalid_id_message_ne (msg : GoString) :
    go "invalid entry ID: " ++ msg ≠ go "journal entry not found" := by
  intro h
  have h1 : (go "invalid entry ID: " ++ msg).head? = some 105 := rfl
  have h2 : (go "journal entry not found").head? = some 106 := rfl
  rw [h, h2] at h1
  exact absurd h1 (by decide)

end Controllers

/-- C13 (the code at the failing input): a reflection requested for the well-formed
identifier `cdcd...cd`, under which the user has no entry, is answered with status 500, the
status also returned when generation fails; the handler `GetEntry` answers 404 for the same
identifier. -/
theorem reflect_missing_entry_status :
    ObjectIDFromHex missingID = .ok ⟨List.replicate 12 205⟩ ∧
    (∀ e ∈ sampleWorld.journal_entries, e.ID ≠ ⟨List.replicate 12 205⟩) ∧
    ReflectionController.GenerateReflection (sampleEnv defaultConfig) sampleWorld
        (some { EntryID := missingID, Type_ := go "" })
      = some (.Error (go "failed to get journal entry: journal entry not found") 500,
          sampleWorld) ∧
    (ReflectionController.GenerateReflection
        (sampleEnv { defaultConfig with UseLocalModel := true }) sampleWorld
        (some (sampleRequest ""))).map (fun p => p.1)
      = some (.Error (go "failed to generate AI reflection: failed to call local model: connection refused")
          500) ∧
    JournalController.GetEntry (sampleEnv defaultConfig) sampleWorld missingID
      = .Error (go "journal entry not found") 404 := by
  refine ⟨rfl, by decide, by decide, by decide, by decide⟩

/-- C14 (the code at the failing input): for the malformed identifier `not-an-id`, the
handlers of GET, PUT (with a valid body) and DELETE `/entries/{id}` answer with status 500. -/
theorem journal_malformed_id_status :
    ObjectIDFromHex malformedID
      = .error (.library (go "the provided hex string is not a valid ObjectID")) ∧
    JournalController.GetEntry (sampleEnv defaultConfig) sampleWorld malformedID
      = .Error (go "invalid entry ID: the provided hex string is not a valid ObjectID") 500 ∧
    JournalController.UpdateEntry (sampleEnv defaultConfig) sampleWorld malformedID
        (some sampleCreate)
      = (.Error (go "invalid entry ID: the provided hex string is not a valid ObjectID") 500,
          sampleWorld) ∧
    JournalController.DeleteEntry (sampleEnv defaultConfig) sampleWorld malformedID
      = (.Error (go "invalid entry ID: the provided hex string is not a valid ObjectID") 500,
          sampleWorld) := by
  refine ⟨rfl, by decide, by decide, by decide⟩


section Store

theorem mem_sortDesc {α : Type} (key : α → Time) (l : List α) (x : α) :
    x ∈ sortDesc key l ↔ x ∈ l := by
  induction l with
  | nil => simp [sortDesc]
  | cons a rest ih =>
    simp only [sortDesc, List.mem_append, List.mem_cons, List.mem_filter, decide_eq_true_eq,
      ih]
    constructor
    · rintro (⟨h, _⟩ | h | ⟨h, _⟩)
      · exact Or.inr h
      · exact Or.inl h
      · exact Or.inr h
    · rintro (h | h)
      · exact Or.inr (Or.inl h)
      · by_cases hk : key x > key a
        · exact Or.inl ⟨h, hk⟩
        · exact Or.inr (Or.inr ⟨h, hk⟩)

theorem findOneEntry_owner (env : Env) (w : World) (objectID : ObjectID)
    (userID : GoString) (entry : JournalEntry)
    (h : findOneEntry env w objectID userID = .ok entry) :
    entry ∈ w.journal_entries ∧ entry.ID = objectID ∧ entry.UserID = userID := by
  unfold findOneEntry at h
  split at h
  · exact absurd h (by simp)
  · split at h
    · rename_i e he
      have hp := List.find?_some he
      have hm := List.mem_of_find?_eq_some he
      have heq : e = entry := Except.ok.inj h
      subst heq
      simp only [decide_eq_true_eq] at hp
      exact ⟨hm, hp.1, hp.2⟩
    · exact absurd h (by simp)

theorem findOneEntry_absent (env : Env) (w : World) (objectID : ObjectID)
    (userID : GoString) (hdb : env.dbError .journal_entries .FindOne = none)
    (h : ∀ e ∈ w.journal_entries, ¬ (e.ID = objectID ∧ e.UserID = userID)) :
    findOneEntry env w objectID userID = .error .ErrNoDocuments := by
  have hf : w.journal_entries.find? (fun e => decide (e.ID = objectID ∧ e.UserID = userID))
      = none := by
    rw [List.find?_eq_none]
    intro e he
    simpa using h e he
  simp only [findOneEntry, hdb, hf]

theorem deleteOneEntry_absent (env : Env) (w : World) (objectID : ObjectID)
    (userID : GoString) (hdb : env.dbError .journal_entries .DeleteOne = none)
    (h : ∀ e ∈ w.journal_entries, ¬ (e.ID = objectID ∧ e.UserID = userID)) :
    deleteOneEntry env w objectID userID = (.ok 0, w) := by
  have hf : w.journal_entries.find? (fun e => decide (e.ID = objectID ∧ e.UserID = userID))
      = none := by
    rw [List.find?_eq_none]
    intro e he
    simpa using h e he
  simp only [deleteOneEntry, hdb, hf]

end Store

/-- C11: `JournalService.DeleteEntry` fails with "journal entry not found" when the
identifier is well-formed and no entry of the user has it (the delete being carried out by
the store), and with the different error "invalid entry ID: ..." when the identifier is
malformed; in both cases the store is unchanged, and for a malformed identifier no delete is
issued. -/
theorem DeleteEntry_errors (env : Env) (w : World) (userID entryID : GoString) :
    (∀ objectID, ObjectIDFromHex entryID = .ok objectID →
      env.dbError .journal_entries .DeleteOne = none →
      (∀ e ∈ w.journal_entries, ¬ (e.ID = objectID ∧ e.UserID = userID)) →
      ∃ err, JournalService.DeleteEntry env w userID entryID
          = (some err, w, [⟨.journal_entries, objectID, userID⟩]) ∧
        err.Error = go "journal entry not found") ∧
    (∀ cause, ObjectIDFromHex entryID = .error cause →
      ∃ err, JournalService.DeleteEntry env w userID entryID = (some err, w, []) ∧
        err.Error = go "invalid entry ID: " ++ cause.Error ∧
        err.Error ≠ go "journal entry not found") := by
  constructor
  · intro objectID hid hdb habs
    refine ⟨.errorf (go "journal entry not found"), ?_, rfl⟩
    simp only [JournalService.DeleteEntry, hid, deleteOneEntry_absent env w objectID userID
      hdb habs, if_true]
  · intro cause hid
    refine ⟨.wrap (go "invalid entry ID: ") cause, ?_, rfl, invalid_id_message_ne _⟩
    simp only [JournalService.DeleteEntry, hid]

/-- Witness of `DeleteEntry_errors`: a well-formed identifier that the store does not hold,
and a malformed one. -/
theorem DeleteEntry_errors_witness :
    (∃ err, JournalService.DeleteEntry (sampleEnv defaultConfig) sampleWorld (go "user123")
        missingID
        = (some err, sampleWorld, [⟨.journal_entries, ⟨List.replicate 12 205⟩, go "user123"⟩]) ∧
      err.Error = go "journal entry not found") ∧
    (∃ err, JournalService.DeleteEntry (sampleEnv defaultConfig) sampleWorld (go "user123")
        malformedID = (some err, sampleWorld, []) ∧
      err.Error
        = go "invalid entry ID: "
          ++ (GoError.library (go "the provided hex string is not a valid ObjectID")).Error ∧
      err.Error ≠ go "journal entry not found") :=
  ⟨(DeleteEntry_errors (sampleEnv defaultConfig) sampleWorld (go "user123") missingID).1
      ⟨List.replicate 12 205⟩ rfl rfl (by decide),
   (DeleteEntry_errors (sampleEnv defaultConfig) sampleWorld (go "user123") malformedID).2
      (.library (go "the provided hex string is not a valid ObjectID")) rfl⟩

/-- C12: `GetEntryByID(u, id)` never returns an entry of another user, and answers
"journal entry not found" when the entries stored under `id` belong to other users (the
lookup being carried out by the store); every record returned by `GetEntries(u)`,
`GetReflections(u)` and `GetReflectionsByEntry(u, id)` has UserID `u`. -/
theorem user_isolation (env : Env) (w : World) (userID entryID : GoString) :
    (∀ entry, JournalService.GetEntryByID env w userID entryID = .ok entry →
      entry.UserID = userID) ∧
    (∀ objectID, ObjectIDFromHex entryID = .ok objectID →
      env.dbError .journal_entries .FindOne = none →
      (∀ e ∈ w.journal_entries, e.ID = objectID → e.UserID ≠ userID) →
      JournalService.GetEntryByID env w userID entryID
        = .error (.errorf (go "journal entry not found"))) ∧
    (∀ entries, JournalService.GetEntries env w userID = .ok entries →
      ∀ e ∈ entries, e.UserID = userID) ∧
    (∀ reflections, AIService.GetReflections env w userID = .ok reflections →
      ∀ r ∈ reflections, r.UserID = userID) ∧
    (∀ reflections, AIService.GetReflectionsByEntry env w userID entryID = .ok reflections →
      ∀ r ∈ reflections, r.UserID = userID) := by
  refine ⟨?_, ?_, ?_, ?_, ?_⟩
  · intro entry h
    unfold JournalService.GetEntryByID at h
    split at h
    · exact absurd h (by simp)
    · split at h
      · split at h <;> exact absurd h (by simp)
      · rename_i e he
        have heq : e = entry := Except.ok.inj h
        subst heq
        exact (findOneEntry_owner env w _ userID e he).2.2
  · intro objectID hid hdb hown
    have habs : ∀ e ∈ w.journal_entries, ¬ (e.ID = objectID ∧ e.UserID = userID) :=
      fun e he hc => hown e he hc.1 hc.2
    simp only [JournalService.GetEntryByID, hid, findOneEntry_absent env w objectID userID hdb
      habs, if_true]
  · intro entries h e he
    unfold JournalService.GetEntries at h
    split at h
    · exact absurd h (by simp)
    · dsimp only at h
      split at h
      · exact absurd h (by simp)
      · have heq := Except.ok.inj h
        subst heq
        rw [mem_sortDesc, List.mem_filter] at he
        simpa using he.2
  · intro reflections h r hr
    unfold AIService.GetReflections at h
    split at h
    · exact absurd h (by simp)
    · dsimp only at h
      split at h
      · exact absurd h (by simp)
      · have heq := Except.ok.inj h
        subst heq
        rw [mem_sortDesc, List.mem_filter] at hr
        simpa using hr.2
  · intro reflections h r hr
    unfold AIService.GetReflectionsByEntry at h
    split at h
    · exact absurd h (by simp)
    · split at h
      · exact absurd h (by simp)
      · dsimp only at h
        split at h
        · exact absurd h (by simp)
        · have heq := Except.ok.inj h
          subst heq
          rw [mem_sortDesc, List.mem_filter] at hr
          have := hr.2
          simp only [decide_eq_true_eq] at this
          exact this.2


/-- Witness of `user_isolation`: `user123` asks for the entry `cdcd...cd` of `user456` and
lists its own records in a store shared with `user456`. -/
theorem user_isolation_witness :
    otherEntry ∈ sharedWorld.journal_entries ∧
    ObjectIDFromHex missingID = .ok otherEntry.ID ∧
    JournalService.GetEntryByID (sampleEnv defaultConfig) sharedWorld (go "user123") missingID
      = .error (.errorf (go "journal entry not found")) ∧
    (∀ e ∈ [sampleEntry], e.UserID = go "user123") ∧
    (∀ r ∈ [{ sampleReflection ["work"] "neutral" "insight" with
                EntryID := sampleEntry.ID, CreatedAt := 11 }], r.UserID = go "user123") :=
  ⟨by decide, rfl,
   (user_isolation (sampleEnv defaultConfig) sharedWorld (go "user123") missingID).2.1
      otherEntry.ID rfl rfl (by decide),
   (user_isolation (sampleEnv defaultConfig) sharedWorld (go "user123") missingID).2.2.1
      [sampleEntry] rfl,
   (user_isolation (sampleEnv defaultConfig) sharedWorld (go "user123") missingID).2.2.2.1
      _ rfl⟩

section Keywords

theorem spaceEncodings_ne_nil : ∀ e ∈ spaceEncodings, e ≠ [] := by decide

theorem Split_ne_nil (sep : UInt8) (s : GoString) : Split sep s ≠ [] := by
  cases s with
  | nil => simp [Split]
  | cons b rest =>
    simp only [Split]
    split
    · simp
    · split <;> simp

theorem Split_length (sep : UInt8) (s : GoString) :
    (Split sep s).length = s.count sep + 1 := by
  induction s with
  | nil => simp [Split]
  | cons b rest ih =>
    by_cases h : b = sep
    · simp [Split, h, ih]
    · have hne : Split sep rest ≠ [] := Split_ne_nil sep rest
      simp only [Split, h, if_false]
      cases hs : Split sep rest with
      | nil => exact absurd hs hne
      | cons piece pieces =>
        rw [hs] at ih
        simp only [List.length_cons] at ih ⊢
        rw [ih, List.count_cons]
        simp [h]

theorem Split_no_sep (sep : UInt8) (s : GoString) :
    ∀ piece ∈ Split sep s, sep ∉ piece := by
  induction s with
  | nil => simp [Split]
  | cons b rest ih =>
    by_cases h : b = sep
    · intro piece hp
      simp only [Split, h, if_true, List.mem_cons] at hp
      rcases hp with hp | hp
      · simp [hp]
      · exact ih piece hp
    · intro piece hp
      simp only [Split, h, if_false] at hp
      cases hs : Split sep rest with
      | nil =>
        rw [hs] at hp
        simp only [List.mem_singleton] at hp
        subst hp
        simp only [List.mem_singleton]
        exact fun e => h e.symm
      | cons first others =>
        rw [hs] at hp ih
        simp only [List.mem_cons] at hp
        rcases hp with hp | hp
        · subst hp
          simp only [List.mem_cons, not_or]
          exact ⟨fun e => h e.symm, ih first (List.mem_cons_self _ _)⟩
        · exact ih piece (List.mem_cons_of_mem _ hp)

theorem trimLeftSpace_suffix (fuel : Nat) : ∀ s : GoString, trimLeftSpace fuel s <:+ s := by
  induction fuel with
  | zero => intro s; exact List.suffix_refl s
  | succ n ih =>
    intro s
    simp only [trimLeftSpace]
    split
    · rename_i e _
      exact (ih _).trans ( List.drop_suffix e.length s)
    · exact List.suffix_refl s

theorem trimRightSpace_prefix (fuel : Nat) : ∀ s : GoString, trimRightSpace fuel s <+: s := by
  induction fuel with
  | zero => intro s; exact List.prefix_refl s
  | succ n ih =>
    intro s
    simp only [trimRightSpace]
    split
    · rename_i e _
      exact (ih _).trans ( List.take_prefix (s.length - e.length) s)
    · exact List.prefix_refl s

theorem trimLeftSpace_clean (fuel : Nat) :
    ∀ s : GoString, s.length ≤ fuel → ¬ beginsWithSpace (trimLeftSpace fuel s) := by
  induction fuel with
  | zero =>
    intro s hs
    have hnil : s = [] := List.length_eq_zero.1 (Nat.le_zero.1 hs)
    subst hnil
    rintro ⟨e, he, hp⟩
    simp only [trimLeftSpace] at hp
    exact spaceEncodings_ne_nil e he ( List.prefix_nil.1 hp)
  | succ n ih =>
    intro s hs
    simp only [trimLeftSpace]
    split
    · rename_i e he
      have hmem : e ∈ spaceEncodings := List.mem_of_find?_eq_some he
      have hpos : 0 < e.length := List.length_pos.2 (spaceEncodings_ne_nil e hmem)
      apply ih
      rw [List.length_drop]
      omega
    · rename_i hnone
      rintro ⟨e, he, hp⟩
      rw [List.find?_eq_none] at hnone
      exact hnone e he ( List.isPrefixOf_iff_prefix.2 hp)

theorem trimRightSpace_clean (fuel : Nat) :
    ∀ s : GoString, s.length ≤ fuel → ¬ endsWithSpace (trimRightSpace fuel s) := by
  induction fuel with
  | zero =>
    intro s hs
    have hnil : s = [] := List.length_eq_zero.1 (Nat.le_zero.1 hs)
    subst hnil
    rintro ⟨e, he, hp⟩
    simp only [trimRightSpace] at hp
    exact spaceEncodings_ne_nil e he ( List.suffix_nil.1 hp)
  | succ n ih =>
    intro s hs
    simp only [trimRightSpace]
    split
    · rename_i e he
      have hmem : e ∈ spaceEncodings := List.mem_of_find?_eq_some he
      have hpos : 0 < e.length := List.length_pos.2 (spaceEncodings_ne_nil e hmem)
      have hb := @List.find?_some _ (fun e => List.isSuffixOf e s) e spaceEncodings he
      have hsuf : e <:+ s := List.isSuffixOf_iff_suffix.1 hb
      have hle : e.length ≤ s.length := hsuf.length_le
      apply ih
      rw [List.length_take]
      omega
    · rename_i hnone
      rintro ⟨e, he, hp⟩
      rw [List.find?_eq_none] at hnone
      exact hnone e he ( List.isSuffixOf_iff_suffix.2 hp)

/-- The result of `TrimSpace` is a contiguous part of its argument and neither begins nor
ends with white space. -/
theorem TrimSpace_spec (s : GoString) :
    TrimSpace s <:+: s ∧ ¬ beginsWithSpace (TrimSpace s) ∧ ¬ endsWithSpace (TrimSpace s) := by
  have hl := trimLeftSpace_suffix s.length s
  have hr := trimRightSpace_prefix (trimLeftSpace s.length s).length (trimLeftSpace s.length s)
  refine ⟨hr.isInfix.trans hl.isInfix, ?_, ?_⟩
  · rintro ⟨e, he, hp⟩
    exact trimLeftSpace_clean s.length s (le_refl _) ⟨e, he, hp.trans hr⟩
  · exact trimRightSpace_clean _ _ (le_refl _)

end Keywords


/-- C16: for every response `r` of the model service, the remote path (`ExtractKeywords`) and
the local path (`extractLocalKeywords`) return the same list: `r` trimmed, split on ',' and
each piece trimmed.  The list has one element more than the trimmed `r` has commas, and no
element contains a comma or begins or ends with white space. -/
theorem keywords_parse (oai : OpenAIClient) (env : Env) (content r : GoString) :
    (∀ rest, oai.useLocal = false → env.config.OpenAIAPIKey ≠ go "" →
      env.CreateChatCompletion
          { Model := env.config.OpenAIModel
            Messages := [{ Role := go "user", Content := go "Extract 3-5 key themes or keywords from this journal entry. Return only the keywords separated by commas:\n\n" ++ content }]
            MaxTokens := 50
            Temperature := go "0.3" } = .ok (r :: rest) →
      oai.ExtractKeywords env content = ((Split 44 (TrimSpace r)).map TrimSpace, none)) ∧
    (oai.callLocalModel env
        (go "Extract 3-5 key themes or keywords from this journal entry. Return only the keywords separated by commas:\n\n"
          ++ content ++ go "\n\nKeywords:") = .ok r →
      oai.extractLocalKeywords env content = ((Split 44 (TrimSpace r)).map TrimSpace, none) ∧
      (oai.useLocal = true →
        oai.ExtractKeywords env content = ((Split 44 (TrimSpace r)).map TrimSpace, none))) ∧
    ((Split 44 (TrimSpace r)).map TrimSpace).length = (TrimSpace r).count 44 + 1 ∧
    ∀ k ∈ (Split 44 (TrimSpace r)).map TrimSpace,
      44 ∉ k ∧ ¬ beginsWithSpace k ∧ ¬ endsWithSpace k := by
  refine ⟨?_, ?_, ?_, ?_⟩
  · intro rest hlocal hkey hchat
    simp only [OpenAIClient.ExtractKeywords, hlocal, Bool.false_eq_true, if_false, hkey, hchat,
      parseKeywords]
  · intro hcall
    have h1 : oai.extractLocalKeywords env content
        = ((Split 44 (TrimSpace r)).map TrimSpace, none) := by
      simp only [OpenAIClient.extractLocalKeywords, hcall, parseKeywords]
    refine ⟨h1, ?_⟩
    intro hlocal
    simp only [OpenAIClient.ExtractKeywords, hlocal, if_true, h1]
  · rw [List.length_map, Split_length]
  · intro k hk
    rw [List.mem_map] at hk
    obtain ⟨piece, hpiece, rfl⟩ := hk
    obtain ⟨hin, hb, he⟩ := TrimSpace_spec piece
    exact ⟨fun hc => Split_no_sep 44 (TrimSpace r) piece hpiece (hin.subset hc), hb, he⟩

/-- Witness of `keywords_parse`: both services answer ` work, family ,sleep` and a line feed. -/
theorem keywords_parse_witness :
    (NewOpenAIClient { defaultConfig with OpenAIAPIKey := go "sk-test" }).ExtractKeywords
        (keywordEnv { defaultConfig with OpenAIAPIKey := go "sk-test" }) (go "Slept well.")
      = ((Split 44 (TrimSpace (go " work, family ,sleep\n"))).map TrimSpace, none) ∧
    (NewOpenAIClient { defaultConfig with UseLocalModel := true }).extractLocalKeywords
        (keywordEnv { defaultConfig with UseLocalModel := true }) (go "Slept well.")
      = ((Split 44 (TrimSpace (go " work, family ,sleep\n"))).map TrimSpace, none) ∧
    (Split 44 (TrimSpace (go " work, family ,sleep\n"))).map TrimSpace
      = [go "work", go "family", go "sleep"] :=
  ⟨(keywords_parse (NewOpenAIClient { defaultConfig with OpenAIAPIKey := go "sk-test" })
      (keywordEnv { defaultConfig with OpenAIAPIKey := go "sk-test" }) (go "Slept well.")
      (go " work, family ,sleep\n")).1 [] rfl (by decide) rfl,
   ((keywords_parse (NewOpenAIClient { defaultConfig with UseLocalModel := true })
      (keywordEnv { defaultConfig with UseLocalModel := true }) (go "Slept well.")
      (go " work, family ,sleep\n")).2.1 rfl).1,
   by decide⟩

end Soulprint
